import Mathlib

/-!
# MS_Metadata_reader: the pipeline coordinator

A shallow embedding of `src/main.go` (the CLI coordinator) and
`src/orchestrator/main.go` (the fixed-path orchestrator), together with the
Go standard-library functions they call, and the properties of the
specification proved over it.

Conventions.

* A Go `string` and a Go `[]byte` are both a finite sequence of bytes; they
  are embedded as `List Nat` (a byte is a natural number below 256; no
  definition depends on the bound). The conversions `[]byte(s)` and
  `string(b)` copy the bytes, so they are the identity on that type.
* A Go `error` is embedded as `Option GoString`: `none` is `nil`, `some e`
  is an error whose `Error()` text is `e`.
* A Go `(string, error)` result is a pair.
* The operating system and the two collaborators (extractor process,
  conversion library) are a `World` of answers; a run of `main` is a pure
  function from the world and the command line to the list of effects it
  performs, in order, and the exit status.
* Paths follow the Unix build of `path/filepath`: the separator is `/` and
  there is no volume name.
-/

namespace MSReader

/-! ## Go strings -/

/-- A Go `string` or `[]byte`. -/
abbrev GoString := List Nat

/-- The bytes of an ASCII string literal of the source. -/
def lit (s : String) : GoString := s.data.map Char.toNat

/-- The byte `.`. -/
abbrev dot : Nat := 0x2E

/-- The byte `/`, `filepath.Separator` on Unix. -/
abbrev Separator : Nat := 0x2F

/-- `os.IsPathSeparator` on Unix. -/
def IsPathSeparator (c : Nat) : Bool := c == Separator

/-! ## `path/filepath.Ext` -/

/-- The loop of `filepath.Ext`:
`for i := len(path) - 1; i >= 0 && !os.IsPathSeparator(path[i]); i--`,
returning `path[i:]` at the first `.` met; the argument is `i + 1`. -/
def extLoop (path : GoString) : Nat → GoString
  | 0 => []
  | i + 1 =>
    if IsPathSeparator (path.getD i 0) then []
    else if path.getD i 0 = dot then path.drop i
    else extLoop path i

/-- `filepath.Ext(path)`: the file name extension used by `path`. -/
def filepathExt (path : GoString) : GoString := extLoop path path.length

/-! ## `unicode/utf8` and `strings.ToLower` -/

/-- `utf8.RuneError`, U+FFFD. -/
abbrev RuneError : Nat := 0xFFFD

/-- The table `first` of `unicode/utf8` for a leading byte of a multi-byte
sequence: the length of the sequence and the range accepted for its second
byte; `none` for a byte that cannot start a sequence. -/
def firstInfo (s0 : Nat) : Option (Nat × Nat × Nat) :=
  if 0xC2 ≤ s0 ∧ s0 ≤ 0xDF then some (2, 0x80, 0xBF)
  else if s0 = 0xE0 then some (3, 0xA0, 0xBF)
  else if 0xE1 ≤ s0 ∧ s0 ≤ 0xEC then some (3, 0x80, 0xBF)
  else if s0 = 0xED then some (3, 0x80, 0x9F)
  else if 0xEE ≤ s0 ∧ s0 ≤ 0xEF then some (3, 0x80, 0xBF)
  else if s0 = 0xF0 then some (4, 0x90, 0xBF)
  else if 0xF1 ≤ s0 ∧ s0 ≤ 0xF3 then some (4, 0x80, 0xBF)
  else if s0 = 0xF4 then some (4, 0x80, 0x8F)
  else none

/-- `utf8.DecodeRuneInString(s)`: the first rune of `s` and its width in
bytes; `(RuneError, 1)` for an invalid encoding, `(RuneError, 0)` for the
empty string. The masks and shifts of the source are written as `%` and `*`
(`s0 & 0x1F << 6 | s1 & 0x3F` is `s0 % 32 * 64 + s1 % 64`). -/
def DecodeRuneInString (s : GoString) : Nat × Nat :=
  match s with
  | [] => (RuneError, 0)
  | s0 :: t =>
    if s0 < 0x80 then (s0, 1)
    else
      match firstInfo s0 with
      | none => (RuneError, 1)
      | some (sz, lo, hi) =>
        if s.length < sz then (RuneError, 1)
        else if t.getD 0 0 < lo ∨ hi < t.getD 0 0 then (RuneError, 1)
        else if sz ≤ 2 then (s0 % 32 * 64 + t.getD 0 0 % 64, 2)
        else if t.getD 1 0 < 0x80 ∨ 0xBF < t.getD 1 0 then (RuneError, 1)
        else if sz ≤ 3 then
          (s0 % 16 * 4096 + t.getD 0 0 % 64 * 64 + t.getD 1 0 % 64, 3)
        else if t.getD 2 0 < 0x80 ∨ 0xBF < t.getD 2 0 then (RuneError, 1)
        else
          (s0 % 8 * 262144 + t.getD 0 0 % 64 * 4096 + t.getD 1 0 % 64 * 64
            + t.getD 2 0 % 64, 4)

/-- `utf8.AppendRune(nil, r)`: the UTF-8 encoding of the rune `r`; a
surrogate or a value above U+10FFFF is encoded as `RuneError`. -/
def AppendRune (r : Nat) : GoString :=
  if r ≤ 0x7F then [r]
  else if r ≤ 0x7FF then [0xC0 + r / 64, 0x80 + r % 64]
  else if 0x10FFFF < r ∨ (0xD800 ≤ r ∧ r ≤ 0xDFFF) then [0xEF, 0xBF, 0xBD]
  else if r ≤ 0xFFFF then [0xE0 + r / 4096, 0x80 + r / 64 % 64, 0x80 + r % 64]
  else [0xF0 + r / 262144, 0x80 + r / 4096 % 64, 0x80 + r / 64 % 64, 0x80 + r % 64]

/-- `strings.Map(mapping, s)` for a mapping that never returns a negative
rune: `for _, c := range s` decodes one rune at a time (an invalid byte is
`RuneError`, width 1) and the encoding of `mapping(c)` is written. The first
argument counts the bytes of the current rune still to be stepped over. -/
def stringsMap (mapping : Nat → Nat) : Nat → GoString → GoString
  | _, [] => []
  | skip + 1, _ :: rest => stringsMap mapping skip rest
  | 0, s0 :: rest =>
    AppendRune (mapping (DecodeRuneInString (s0 :: rest)).1)
      ++ stringsMap mapping ((DecodeRuneInString (s0 :: rest)).2 - 1) rest

/-- `unicode.ToLower(r)`. The ASCII range is decided in the function itself;
above it the source consults the Unicode case tables (`unicode.CaseRanges`),
which are the parameter `caseTable`. -/
def unicodeToLower (caseTable : Nat → Nat) (r : Nat) : Nat :=
  if r ≤ 0x7F then
    if 0x41 ≤ r ∧ r ≤ 0x5A then r + (0x61 - 0x41) else r
  else caseTable r

/-- The byte-wise lowering of the ASCII fast path of `strings.ToLower`. -/
def lowerByte (c : Nat) : Nat :=
  if 0x41 ≤ c ∧ c ≤ 0x5A then c + (0x61 - 0x41) else c

/-- `strings.ToLower(s)`: an all-ASCII string is returned as it is when it
has no upper-case letter and lowered byte by byte otherwise; any other
string goes through `strings.Map(unicode.ToLower, s)`. -/
def stringsToLower (caseTable : Nat → Nat) (s : GoString) : GoString :=
  if s.all (fun c => c < 0x80) then
    if s.any (fun c => 0x41 ≤ c ∧ c ≤ 0x5A) then s.map lowerByte else s
  else stringsMap (unicodeToLower caseTable) 0 s

/-- `strings.TrimPrefix(s, pre)`: `s` without the leading `pre`, or `s`
itself when it does not start with `pre`. -/
def stringsTrimPrefix (s pre : GoString) : GoString :=
  if pre.isPrefixOf s then s.drop pre.length else s

/-! ## The world -/

/-- An `os.DirEntry`, as far as the program looks at it. -/
structure DirEntry where
  /-- The result of `entry.Name()`. -/
  Name : GoString
  /-- The result of `entry.IsDir()`. -/
  IsDir : Bool
  deriving DecidableEq

/-- The answers of the operating system and of the two collaborators. -/
structure World where
  /-- The value of `os.Args[0]`. -/
  args0 : GoString
  /-- The result of `os.ReadDir(path)`: entries in listing order, error. -/
  ReadDir : GoString → List DirEntry × Option GoString
  /-- The result of `os.MkdirAll(path, perm)`. -/
  MkdirAll : GoString → Nat → Option GoString
  /-- The result of `os.Executable()`. -/
  Executable : GoString × Option GoString
  /-- A child process `exec.Command(name, args...)` run to completion with
  its standard output captured: the captured bytes and the error of
  `cmd.Run()` (a launch failure or a non-zero exit). -/
  Command : GoString → List GoString → GoString × Option GoString
  /-- The result of `conversion.Convert(raw, mapping, r1, r2, out)`. -/
  Convert : GoString → GoString → GoString → GoString → GoString →
    GoString × Option GoString

/-! ## `src/main.go`: file-type detection -/

/-- The loop `for _, entry := range entries` of `getFileTypeFromDir`: the
value returned from inside the loop at the first entry that is not a
directory, `none` when the loop runs to its end. -/
def firstRegularFile (caseTable : Nat → Nat) : List DirEntry → Option GoString
  | [] => none
  | entry :: entries =>
    if !entry.IsDir then
      some (stringsTrimPrefix (stringsToLower caseTable (filepathExt entry.Name)) (lit "."))
    else firstRegularFile caseTable entries

/-- The function `getFileTypeFromDir(dirPath)` of `src/main.go`. -/
def getFileTypeFromDir (caseTable : Nat → Nat) (w : World) (dirPath : GoString) :
    GoString × Option GoString :=
  match w.ReadDir dirPath with
  | (_, some err) => (lit "", some err)
  | (entries, none) =>
    match firstRegularFile caseTable entries with
    | some tag => (tag, none)
    | none => (lit "", some (lit "no regular file found in directory"))

/-! ## `path/filepath.Clean`, `Join`, `Dir`, `Base` -/

/-- The inner loop of the `..` case of `filepath.Clean`:
`for out.w > dotdot && !os.IsPathSeparator(out.index(out.w)) { out.w-- }`;
the argument and the result are `out.w`. -/
def cleanBacktrack (out : GoString) (dotdot : Nat) : Nat → Nat
  | 0 => 0
  | w + 1 =>
    if dotdot < w + 1 ∧ !IsPathSeparator (out.getD (w + 1) 0) then cleanBacktrack out dotdot w
    else w + 1

/-- The main loop `for r < n` of `filepath.Clean`. The bytes still to be
read (`path[r:]`) are the second list argument, the bytes written so far
(`out`, with `out.w` its length) the third. Every iteration reads at least
one byte; the first argument bounds the number of iterations. -/
def cleanLoop (rooted : Bool) : Nat → GoString → GoString → Nat → GoString
  | 0, _, out, _ => out
  | _, [], out, _ => out
  | fuel + 1, c :: rest, out, dotdot =>
    if IsPathSeparator c then
      -- empty path element
      cleanLoop rooted fuel rest out dotdot
    else if c = dot ∧ (rest = [] ∨ IsPathSeparator (rest.getD 0 0)) then
      -- . element
      cleanLoop rooted fuel rest out dotdot
    else if c = dot ∧ rest.getD 0 0 = dot ∧
        (rest.drop 1 = [] ∨ IsPathSeparator (rest.getD 1 0)) then
      -- .. element: remove to last separator
      if dotdot < out.length then
        cleanLoop rooted fuel (rest.drop 1)
          (out.take (cleanBacktrack out dotdot (out.length - 1))) dotdot
      else if !rooted then
        cleanLoop rooted fuel (rest.drop 1)
          ((if 0 < out.length then out ++ [Separator] else out) ++ [dot, dot])
          ((if 0 < out.length then out ++ [Separator] else out) ++ [dot, dot]).length
      else cleanLoop rooted fuel (rest.drop 1) out dotdot
    else
      -- real path element: add slash if needed, copy element
      cleanLoop rooted fuel ((c :: rest).dropWhile (fun b => !IsPathSeparator b))
        ((if (rooted ∧ out.length ≠ 1) ∨ (!rooted ∧ out.length ≠ 0) then out ++ [Separator]
          else out) ++ (c :: rest).takeWhile (fun b => !IsPathSeparator b))
        dotdot

/-- `filepath.Clean(path)` on Unix: the shortest path name equivalent to
`path` by purely lexical processing. -/
def filepathClean (path : GoString) : GoString :=
  if path = [] then lit "."
  else
    let rooted := IsPathSeparator (path.getD 0 0)
    let out :=
      if rooted then cleanLoop rooted path.length (path.drop 1) [Separator] 1
      else cleanLoop rooted path.length path [] 0
    if out.length = 0 then lit "." else out

/-- `strings.Join(elems, sep)`. -/
def stringsJoin (elems : List GoString) (sep : GoString) : GoString :=
  sep.intercalate elems

/-- `filepath.Join(elem...)` on Unix: the elements from the first non-empty
one on, joined with the separator and cleaned; empty when all are empty. -/
def filepathJoin : List GoString → GoString
  | [] => []
  | e :: es =>
    if e ≠ [] then filepathClean (stringsJoin (e :: es) [Separator])
    else filepathJoin es

/-- The loop `for i >= 0 && !os.IsPathSeparator(path[i]) { i-- }` shared by
`filepath.Dir` and `filepath.Base`; the argument and the result are
`i + 1`. -/
def lastSeparator (path : GoString) : Nat → Nat
  | 0 => 0
  | i + 1 => if IsPathSeparator (path.getD i 0) then i + 1 else lastSeparator path i

/-- `filepath.Dir(path)` on Unix: all but the last element of `path`,
cleaned. -/
def filepathDir (path : GoString) : GoString :=
  filepathClean (path.take (lastSeparator path path.length))

/-- The loop of `filepath.Base` that strips trailing separators; the
argument and the result are the length kept. -/
def stripTrailing (path : GoString) : Nat → Nat
  | 0 => 0
  | n + 1 => if IsPathSeparator (path.getD n 0) then stripTrailing path n else n + 1

/-- `filepath.Base(path)` on Unix: the last element of `path`. -/
def filepathBase (path : GoString) : GoString :=
  if path = [] then lit "."
  else
    let p := path.take (stripTrailing path path.length)
    let b := p.drop (lastSeparator p p.length)
    if b = [] then [Separator] else b

/-! ## Effects and runs -/

/-- One effect of a run, with the answer the world gave to it. -/
inductive Event where
  /-- Bytes written by the program to `os.Stdout`. -/
  | stdout (text : GoString)
  /-- Bytes written by the program to `os.Stderr`. -/
  | stderr (text : GoString)
  /-- A call `os.ReadDir(path)`. -/
  | readDir (path : GoString) (entries : List DirEntry) (err : Option GoString)
  /-- A call `os.MkdirAll(path, perm)`. -/
  | mkdirAll (path : GoString) (perm : Nat) (err : Option GoString)
  /-- A call `os.Executable()`. -/
  | executable (path : GoString) (err : Option GoString)
  /-- A child process `name args...` started by `cmd.Run()`; `inheritStderr`
  says whether `cmd.Stderr = os.Stderr` was set; `out` is what it wrote to
  its standard output, `err` the error of `cmd.Run()`. -/
  | command (name : GoString) (args : List GoString) (inheritStderr : Bool)
      (out : GoString) (err : Option GoString)
  /-- A call `conversion.Convert(raw, mapping, r1, r2, outFile)`. -/
  | convert (raw mapping r1 r2 outFile : GoString) (res : GoString) (err : Option GoString)
  deriving DecidableEq

/-- A finished run: its effects in order, and the exit status of the
process. -/
structure Run where
  /-- The effects, first to last. -/
  trace : List Event
  /-- The exit status. -/
  exit : Nat
  deriving DecidableEq

/-- `fmt.Sprintln` of string operands: the operands separated by one space,
followed by a newline. `fmt.Println` and `fmt.Fprintln` write this text. -/
def Sprintln (operands : List GoString) : GoString :=
  (lit " ").intercalate operands ++ lit "\n"

/-- Whether an event is a call of `conversion.Convert`. -/
def Event.isConvert : Event → Bool
  | .convert .. => true
  | _ => false

/-- Whether an event starts a child process. -/
def Event.isCommand : Event → Bool
  | .command .. => true
  | _ => false

/-- Whether an event is a call of `os.MkdirAll`. -/
def Event.isMkdirAll : Event → Bool
  | .mkdirAll .. => true
  | _ => false

/-- Whether an event is a call of `os.ReadDir`. -/
def Event.isReadDir : Event → Bool
  | .readDir .. => true
  | _ => false

/-- The bytes an event writes to standard output. -/
def Event.stdoutText : Event → GoString
  | .stdout text => text
  | _ => []

/-- The bytes an event writes to standard error. -/
def Event.stderrText : Event → GoString
  | .stderr text => text
  | _ => []

/-- Everything a run wrote to standard output, in order. -/
def Run.stdout (r : Run) : GoString := (r.trace.map Event.stdoutText).flatten

/-- Everything the program itself wrote to standard error, in order. -/
def Run.stderr (r : Run) : GoString := (r.trace.map Event.stderrText).flatten

/-! ## `src/main.go`: the CLI coordinator -/

namespace Cli

/-- The function `runCmd(name, args...)` of `src/main.go`: the child's
standard output is captured in a buffer, its standard error is the
coordinator's own; returns `outBuf.String()` and the error of `cmd.Run()`. -/
def runCmd (w : World) (name : GoString) (args : List GoString) :
    Event × (GoString × Option GoString) :=
  (Event.command name args true (w.Command name args).1 (w.Command name args).2,
    w.Command name args)

/-- The text `flag.PrintDefaults()` writes to standard error for the two
string flags `i` and `o` defined on lines 42 and 43, both with the empty
default. -/
def printDefaults : GoString :=
  lit "  -i string\n    \tInput directory containing the file to process (required)\n"
    ++ lit "  -o string\n    \tOutput directory for results (required)\n"

/-- The mapping-table path of line 83:
`filepath.Join("..", "Converter", "csv", "ms_conversions_"+fileExt+".csv")`. -/
def converterCSVPath (fileExt : GoString) : GoString :=
  filepathJoin [lit "..", lit "Converter", lit "csv",
    lit "ms_conversions_" ++ fileExt ++ lit ".csv"]

/-- How the call `flag.Parse()` of line 45 ends. The command-line flag set
handles errors with `flag.ExitOnError`, so the call either returns, with the
flag variables `*inputDir` and `*outputDir` set, or ends the process itself
after writing to standard error. -/
inductive FlagOutcome where
  /-- The call returned; the values of `*inputDir` and `*outputDir`. -/
  | returned (inputDir outputDir : GoString)
  /-- The call wrote `writes` to standard error, one after the other, and
  called `os.Exit(code)`. -/
  | exited (writes : List GoString) (code : Nat)
  deriving DecidableEq

/-- The result of one call of `parseOne` of package `flag`. -/
inductive ParseOne where
  /-- A flag was parsed (`true, nil`): the arguments left and the values of
  the two flag variables. -/
  | seen (args : List GoString) (inputDir outputDir : GoString)
  /-- No flag at the head of the arguments (`false, nil`). -/
  | stop
  /-- The flag `-h` or `-help` (`false, ErrHelp`). -/
  | help
  /-- An error made by `failf` with this message. -/
  | failed (msg : GoString)
  deriving DecidableEq

/-- The method `parseOne` of package `flag` on the flag set of lines 42 and
43: the two string flags `i` and `o`, bound to `inputDir` and `outputDir`.
`0x2D` is `-` and `0x3D` is `=`. -/
def parseOne (args : List GoString) (inputDir outputDir : GoString) : ParseOne :=
  match args with
  | [] => .stop
  | s :: rest =>
    if s.length < 2 ∨ s.getD 0 0 ≠ 0x2D then .stop
    else if s.getD 1 0 = 0x2D ∧ s.length = 2 then
      -- "--" terminates the flags
      .stop
    else
      let name := s.drop (if s.getD 1 0 = 0x2D then 2 else 1)
      if name.length = 0 ∨ name.getD 0 0 = 0x2D ∨ name.getD 0 0 = 0x3D then
        .failed (lit "bad flag syntax: " ++ s)
      else
        -- it's a flag. does it have an argument? (equals cannot be first)
        let hasValue : Bool := (name.drop 1).contains 0x3D
        let value := ((name.drop 1).dropWhile (fun c => c != 0x3D)).drop 1
        let name := name.take 1 ++ (name.drop 1).takeWhile (fun c => c != 0x3D)
        if name = lit "i" ∨ name = lit "o" then
          -- It must have a value, which might be the next argument.
          if hasValue then
            if name = lit "i" then .seen rest value outputDir else .seen rest inputDir value
          else
            match rest with
            | [] => .failed (lit "flag needs an argument: -" ++ name)
            | next :: rest =>
              if name = lit "i" then .seen rest next outputDir else .seen rest inputDir next
        else if name = lit "help" ∨ name = lit "h" then .help
        else .failed (lit "flag provided but not defined: -" ++ name)

/-- The writes of `flag.Usage()`: the line `Usage of <os.Args[0]>:` and the
flag defaults. -/
def flagUsage (args0 : GoString) : List GoString :=
  [lit "Usage of " ++ args0 ++ lit ":\n", printDefaults]

/-- The loop of `flag.Parse`: `parseOne` is called until it sees no flag; on
`ErrHelp` the process exits with status 0 after the usage text, on any other
error with status 2 after the message and the usage text. A call that sees a
flag reads at least one argument; the first argument of the loop bounds the
number of iterations. -/
def parseLoop (args0 : GoString) : Nat → List GoString → GoString → GoString → FlagOutcome
  | 0, _, inputDir, outputDir => .returned inputDir outputDir
  | fuel + 1, args, inputDir, outputDir =>
    match parseOne args inputDir outputDir with
    | .seen args inputDir outputDir => parseLoop args0 fuel args inputDir outputDir
    | .stop => .returned inputDir outputDir
    | .help => .exited (flagUsage args0) 0
    | .failed msg => .exited ((msg ++ lit "\n") :: flagUsage args0) 2

/-- The call `flag.Parse()` of line 45 on the arguments `os.Args[1:]`, with
both flag variables holding their default, the empty string. -/
def flagParse (args0 : GoString) (arguments : List GoString) : FlagOutcome :=
  parseLoop args0 arguments.length arguments (lit "") (lit "")

/-- The function `main` of `src/main.go`; `arguments` is `os.Args[1:]`. -/
def main (caseTable : Nat → Nat) (w : World) (arguments : List GoString) : Run :=
  match flagParse w.args0 arguments with
  | .exited writes code => { trace := writes.map Event.stderr, exit := code }
  | .returned inputDir outputDir =>
  if inputDir = lit "" ∨ outputDir = lit "" then
    { trace := [.stderr (lit "Usage: " ++ w.args0
                  ++ lit " -i <input_directory> -o <output_directory>\n"),
                .stderr printDefaults],
      exit := 1 }
  else
  -- Get file type from input directory
  let t1 := [Event.readDir inputDir (w.ReadDir inputDir).1 (w.ReadDir inputDir).2]
  match getFileTypeFromDir caseTable w inputDir with
  | (_, some err) =>
    { trace := t1 ++ [.stderr (Sprintln [lit "Failed to detect file type:", err])],
      exit := 1 }
  | (fileExt, none) =>
  -- Ensure output dir exists
  let t2 := t1 ++ [Event.mkdirAll outputDir 0o755 (w.MkdirAll outputDir 0o755)]
  match w.MkdirAll outputDir 0o755 with
  | some err =>
    { trace := t2 ++ [.stderr (Sprintln [lit "Failed to create output dir:", err])],
      exit := 1 }
  | none =>
  let t3 := t2 ++ [Event.executable w.Executable.1 w.Executable.2]
  match w.Executable with
  | (_, some err) =>
    { trace := t3 ++ [.stderr (Sprintln [lit "Failed to get executable path:", err])],
      exit := 1 }
  | (execPath, none) =>
  let execDir := filepathDir execPath
  let extractorPath := filepathJoin [execDir, lit "dist/extractor_bin"]
  let t4 := t3 ++ [.stdout (Sprintln [lit "=== Running Python extractor ==="])]
  let args := [inputDir, outputDir]
  let t5 := t4 ++ [(runCmd w extractorPath args).1]
  match (runCmd w extractorPath args).2 with
  | (_, some err) =>
    { trace := t5 ++ [.stderr (Sprintln [lit "Extractor failed due to:", err])],
      exit := 1 }
  | (data, none) =>
  let t6 := t5 ++ [.stdout (Sprintln [lit "=== Running Go converter ==="])]
  -- Point to the CSV file in the Converter project
  let csvPath := converterCSVPath fileExt
  let outFile := outputDir ++ lit "/converted.json"
  let t7 := t6 ++ [Event.convert data csvPath (lit "") (lit "") outFile
    (w.Convert data csvPath (lit "") (lit "") outFile).1
    (w.Convert data csvPath (lit "") (lit "") outFile).2]
  match w.Convert data csvPath (lit "") (lit "") outFile with
  | (_, some err) =>
    { trace := t7 ++ [.stderr (Sprintln [lit "Converter failed due to:", err])],
      exit := 1 }
  | (out, none) =>
    { trace := t7 ++ [.stdout (Sprintln [lit "\n=== MS Reader results ==="]),
                      .stdout (Sprintln [out])],
      exit := 0 }

end Cli

/-! ## `src/orchestrator/main.go`: the fixed-path orchestrator -/

namespace Orchestrator

/-- The function `runCmd(name, args...)` of `src/orchestrator/main.go`: the
child's standard output is captured; its standard error is not connected. -/
def runCmd (w : World) (name : GoString) (args : List GoString) :
    Event × (GoString × Option GoString) :=
  (Event.command name args false (w.Command name args).1 (w.Command name args).2,
    w.Command name args)

/-- The function `main` of `src/orchestrator/main.go`. -/
def main (w : World) : Run :=
  let inputDir := lit "/app/input"
  let outputDir := lit "/app/output"
  let t1 := [Event.stdout (Sprintln [lit "Running Python extractor..."])]
  let pythonArgs := [lit "-m", lit "extractor", inputDir, outputDir]
  let t2 := t1 ++ [(runCmd w (lit "python3") pythonArgs).1]
  match (runCmd w (lit "python3") pythonArgs).2 with
  | (_, some err) =>
    { trace := t2 ++ [.stderr (Sprintln [lit "Python extractor failed due to:", err])],
      exit := 1 }
  | (data, none) =>
  let t3 := t2 ++ [.stdout (Sprintln [lit "Running Go converter..."])]
  let outFile := outputDir ++ lit "/converted.json"
  let t4 := t3 ++ [Event.convert data (lit "") (lit "") (lit "") outFile
    (w.Convert data (lit "") (lit "") (lit "") outFile).1
    (w.Convert data (lit "") (lit "") (lit "") outFile).2]
  match w.Convert data (lit "") (lit "") (lit "") outFile with
  | (_, some err) =>
    { trace := t4 ++ [.stderr (Sprintln [lit "The Go converter failed due to:", err])],
      exit := 1 }
  | (out, none) =>
    { trace := t4 ++ [.stdout (Sprintln [lit "\n", out])],
      exit := 0 }

end Orchestrator

/-! ## Notions used to state the properties -/

/-- The property of the Unicode case tables on which the shape of the tag
rests: no rune above the ASCII range has `.` or `/` as its lower case. -/
def CaseTableOK (caseTable : Nat → Nat) : Prop :=
  ∀ r, 0x80 ≤ r → caseTable r ≠ dot ∧ caseTable r ≠ Separator

/-- The phases of a run of the CLI coordinator, in order: argument
validation, file-type detection, output-directory creation, extraction
(locating and invoking the extractor), conversion. -/
inductive Phase where
  | validation
  | detection
  | outputDir
  | extraction
  | conversion
  deriving DecidableEq

/-- The position of a phase in the run. -/
def Phase.rank : Phase → Nat
  | .validation => 0
  | .detection => 1
  | .outputDir => 2
  | .extraction => 3
  | .conversion => 4

/-- The phase that performs an effect; writes to the standard streams
belong to none. -/
def Event.phase : Event → Option Phase
  | .readDir .. => some .detection
  | .mkdirAll .. => some .outputDir
  | .executable .. => some .extraction
  | .command .. => some .extraction
  | .convert .. => some .conversion
  | .stdout _ => none
  | .stderr _ => none

/-- The phase named by what a failed run wrote to standard error, read off
its first bytes. -/
def phaseOfDiagnostic (text : GoString) : Option Phase :=
  if (lit "Usage: ").isPrefixOf text then some .validation
  else if (lit "Failed to detect file type:").isPrefixOf text then some .detection
  else if (lit "Failed to create output dir:").isPrefixOf text then some .outputDir
  else if (lit "Failed to get executable path:").isPrefixOf text then some .extraction
  else if (lit "Extractor failed due to:").isPrefixOf text then some .extraction
  else if (lit "Converter failed due to:").isPrefixOf text then some .conversion
  else none

/-- The phase `ph` fails in the run of the CLI coordinator on this command
line: `flag.Parse` returned and a flag value is empty; `getFileTypeFromDir`
returned an error; the call of `os.MkdirAll` did; `os.Executable` or the
extractor process did; `conversion.Convert` did. -/
def Cli.Fails (caseTable : Nat → Nat) (w : World) (arguments : List GoString) :
    Phase → Prop
  | .validation =>
    ∃ inputDir outputDir,
      Cli.flagParse w.args0 arguments = .returned inputDir outputDir ∧
        (inputDir = lit "" ∨ outputDir = lit "")
  | .detection =>
    ∃ inputDir entries err,
      Event.readDir inputDir entries err ∈ (Cli.main caseTable w arguments).trace ∧
        (getFileTypeFromDir caseTable w inputDir).2 ≠ none
  | .outputDir =>
    ∃ path perm err,
      Event.mkdirAll path perm (some err) ∈ (Cli.main caseTable w arguments).trace
  | .extraction =>
    (∃ path err,
      Event.executable path (some err) ∈ (Cli.main caseTable w arguments).trace) ∨
    (∃ name args inh out err,
      Event.command name args inh out (some err) ∈ (Cli.main caseTable w arguments).trace)
  | .conversion =>
    ∃ raw mapping r1 r2 outFile res err,
      Event.convert raw mapping r1 r2 outFile res (some err) ∈
        (Cli.main caseTable w arguments).trace

/-- The phase `ph` is executed and succeeds in the run of the CLI
coordinator on this command line. -/
def Cli.Succeeds (caseTable : Nat → Nat) (w : World) (arguments : List GoString) :
    Phase → Prop
  | .validation =>
    ∃ inputDir outputDir,
      Cli.flagParse w.args0 arguments = .returned inputDir outputDir ∧
        inputDir ≠ lit "" ∧ outputDir ≠ lit ""
  | .detection =>
    ∃ inputDir entries err,
      Event.readDir inputDir entries err ∈ (Cli.main caseTable w arguments).trace ∧
        (getFileTypeFromDir caseTable w inputDir).2 = none
  | .outputDir =>
    ∃ path, Event.mkdirAll path 0o755 none ∈ (Cli.main caseTable w arguments).trace
  | .extraction =>
    (∃ path, Event.executable path none ∈ (Cli.main caseTable w arguments).trace) ∧
    (∃ name args inh out,
      Event.command name args inh out none ∈ (Cli.main caseTable w arguments).trace)
  | .conversion =>
    ∃ raw mapping r1 r2 outFile res,
      Event.convert raw mapping r1 r2 outFile res none ∈
        (Cli.main caseTable w arguments).trace

/-! ## Concrete worlds -/

/-- A case table that changes nothing above the ASCII range. -/
def plainTable : Nat → Nat := fun r => r

/-- A world in which every call succeeds: the listing of any directory is
the subdirectory `raw` followed by the files `scan.mzML` and `notes.txt`,
the program is installed as `/opt/ms/ms_reader`, the extractor writes `{}`
and the converter returns `{"a":1}`. -/
def demoWorld : World where
  args0 := lit "ms_reader"
  ReadDir := fun _ =>
    ([⟨lit "raw", true⟩, ⟨lit "scan.mzML", false⟩, ⟨lit "notes.txt", false⟩], none)
  MkdirAll := fun _ _ => none
  Executable := (lit "/opt/ms/ms_reader", none)
  Command := fun _ _ => (lit "\x7b\x7d", none)
  Convert := fun _ _ _ _ _ => (lit "\x7b\"a\":1\x7d", none)

/-- The world `demoWorld` with an extractor that writes `half` to its
standard output and then exits with status 1. -/
def brokenExtractorWorld : World :=
  { demoWorld with Command := fun _ _ => (lit "half", some (lit "exit status 1")) }

/-- The world `demoWorld` with an input directory that holds only
`scan.mzml`. -/
def mzmlWorld : World :=
  { demoWorld with ReadDir := fun _ => ([⟨lit "scan.mzml", false⟩], none) }

/-- The world `demoWorld` with an input directory that holds two
subdirectories and no file. -/
def dirsOnlyWorld : World :=
  { demoWorld with ReadDir := fun _ => ([⟨lit "raw", true⟩, ⟨lit "cal", true⟩], none) }

/-! ## Lemmas: `filepath.Ext` -/

theorem isPathSeparator_iff (c : Nat) : IsPathSeparator c = true ↔ c = Separator := by
  simp [IsPathSeparator]

theorem extLoop_succ (path : GoString) (i : Nat) :
    extLoop path (i + 1) =
      if IsPathSeparator (path.getD i 0) then []
      else if path.getD i 0 = dot then path.drop i
      else extLoop path i := rfl

theorem extLoop_skip (pre suf : GoString) (h : ∀ c ∈ suf, c ≠ dot ∧ c ≠ Separator) :
    ∀ k, k ≤ suf.length →
      extLoop (pre ++ suf) (pre.length + k) = extLoop (pre ++ suf) pre.length := by
  intro k
  induction k with
  | zero => intro _; rfl
  | succ k ih =>
    intro hk
    have hlt : k < suf.length := hk
    have hget : (pre ++ suf).getD (pre.length + k) 0 = suf[k] := by
      rw [List.getD_append_right _ _ _ _ (by omega), Nat.add_sub_cancel_left,
        List.getD_eq_getElem _ _ hlt]
    have hmem := h _ (List.getElem_mem hlt)
    have hs : ¬ IsPathSeparator suf[k] = true := fun e => hmem.2 ((isPathSeparator_iff _).1 e)
    rw [← Nat.add_assoc, extLoop_succ, hget, if_neg hs, if_neg hmem.1]
    exact ih (by omega)

theorem filepathExt_last_dot (stem suf : GoString) (h : ∀ c ∈ suf, c ≠ dot ∧ c ≠ Separator) :
    filepathExt (stem ++ dot :: suf) = dot :: suf := by
  have h1 := extLoop_skip (stem ++ [dot]) suf h suf.length (Nat.le_refl _)
  have e : stem ++ dot :: suf = (stem ++ [dot]) ++ suf := by simp
  have hl : (stem ++ [dot]).length = stem.length + 1 := by simp
  have hg : (stem ++ [dot] ++ suf).getD stem.length 0 = dot := by
    rw [List.append_assoc, List.getD_append_right _ _ _ _ (Nat.le_refl _), Nat.sub_self]
    rfl
  have hs : ¬ IsPathSeparator dot = true := by decide
  unfold filepathExt
  rw [e, List.length_append, h1, hl, extLoop_succ, hg, if_neg hs, if_pos rfl,
    List.append_assoc, List.drop_left]
  rfl

theorem extLoop_no_dot (path : GoString) (h : ∀ c ∈ path, c ≠ dot) :
    ∀ n, extLoop path n = [] := by
  intro n
  induction n with
  | zero => rfl
  | succ i ih =>
    rw [extLoop_succ]
    by_cases hs : IsPathSeparator (path.getD i 0) = true
    · rw [if_pos hs]
    · have hd : path.getD i 0 ≠ dot := by
        by_cases hi : i < path.length
        · rw [List.getD_eq_getElem _ _ hi]; exact h _ (List.getElem_mem hi)
        · rw [List.getD_eq_default _ _ (by omega)]; decide
      rw [if_neg hs, if_neg hd, ih]

theorem extLoop_shape (path : GoString) :
    ∀ n, n ≤ path.length → (∀ c ∈ path.drop n, c ≠ dot ∧ c ≠ Separator) →
      extLoop path n = [] ∨
        ∃ suf, extLoop path n = dot :: suf ∧ ∀ c ∈ suf, c ≠ dot ∧ c ≠ Separator := by
  intro n
  induction n with
  | zero => intro _ _; exact Or.inl rfl
  | succ i ih =>
    intro hn hclean
    have hi : i < path.length := hn
    have hdrop : path.drop i = path[i] :: path.drop (i + 1) := List.drop_eq_getElem_cons hi
    rw [extLoop_succ, List.getD_eq_getElem _ _ hi]
    by_cases hs : IsPathSeparator path[i] = true
    · rw [if_pos hs]; exact Or.inl rfl
    · rw [if_neg hs]
      by_cases hd : path[i] = dot
      · rw [if_pos hd, hdrop, hd]
        exact Or.inr ⟨path.drop (i + 1), rfl, hclean⟩
      · rw [if_neg hd]
        apply ih (by omega)
        intro c hc
        rw [hdrop] at hc
        rcases List.mem_cons.1 hc with rfl | hc
        · exact ⟨hd, fun e => hs ((isPathSeparator_iff _).2 e)⟩
        · exact hclean c hc

theorem filepathExt_shape (path : GoString) :
    filepathExt path = [] ∨
      ∃ suf, filepathExt path = dot :: suf ∧ ∀ c ∈ suf, c ≠ dot ∧ c ≠ Separator := by
  apply extLoop_shape path path.length (Nat.le_refl _)
  simp

/-! ## Lemmas: `strings.ToLower` and `strings.TrimPrefix` -/

theorem decodeRune_ascii (s0 : Nat) (t : GoString) (h : s0 < 0x80) :
    DecodeRuneInString (s0 :: t) = (s0, 1) := by
  simp [DecodeRuneInString, h]

theorem firstInfo_spec (s0 sz lo hi : Nat) (h : firstInfo s0 = some (sz, lo, hi)) :
    0x80 ≤ lo ∧ hi ≤ 0xBF ∧
      ((sz = 2 ∧ 2 ≤ s0 % 32) ∨ (sz = 3 ∧ (1 ≤ s0 % 16 ∨ 0xA0 ≤ lo)) ∨
        (sz = 4 ∧ (1 ≤ s0 % 8 ∨ 0x90 ≤ lo))) := by
  unfold firstInfo at h
  split_ifs at h <;> simp only [Option.some.injEq, Prod.mk.injEq] at h <;>
    obtain ⟨rfl, rfl, rfl⟩ := h <;> omega

theorem decodeRune_ge (s0 : Nat) (t : GoString) (h : 0x80 ≤ s0) :
    0x80 ≤ (DecodeRuneInString (s0 :: t)).1 := by
  unfold DecodeRuneInString
  simp only [if_neg (Nat.not_lt.2 h)]
  cases hfi : firstInfo s0 with
  | none => simp only [RuneError]; omega
  | some p =>
    obtain ⟨sz, lo, hi⟩ := p
    have hspec := firstInfo_spec s0 sz lo hi hfi
    simp only
    split_ifs <;> simp only [RuneError] <;> omega

theorem appendRune_clean (y : Nat) (hd : y ≠ dot) (hs : y ≠ Separator) :
    ∀ b ∈ AppendRune y, b ≠ dot ∧ b ≠ Separator := by
  unfold AppendRune
  intro b hb
  split_ifs at hb <;> simp at hb <;> (try rcases hb with rfl | rfl | rfl | rfl) <;>
    simp only [dot, Separator] at * <;> omega

theorem unicodeToLower_clean (caseTable : Nat → Nat) (hT : CaseTableOK caseTable) (r : Nat)
    (hd : r ≠ dot) (hs : r ≠ Separator) :
    unicodeToLower caseTable r ≠ dot ∧ unicodeToLower caseTable r ≠ Separator := by
  unfold unicodeToLower
  split_ifs with h1 h2
  · simp only [dot, Separator] at *; omega
  · exact ⟨hd, hs⟩
  · exact hT r (by omega)

theorem lowerByte_clean (c : Nat) (hd : c ≠ dot) (hs : c ≠ Separator) :
    lowerByte c ≠ dot ∧ lowerByte c ≠ Separator := by
  unfold lowerByte
  split_ifs with h1
  · simp only [dot, Separator] at *; omega
  · exact ⟨hd, hs⟩

theorem stringsMap_clean (caseTable : Nat → Nat) (hT : CaseTableOK caseTable) :
    ∀ (s : GoString) (skip : Nat), (∀ c ∈ s, c ≠ dot ∧ c ≠ Separator) →
      ∀ b ∈ stringsMap (unicodeToLower caseTable) skip s, b ≠ dot ∧ b ≠ Separator := by
  intro s
  induction s with
  | nil => intro skip _ b hb; cases skip <;> simp [stringsMap] at hb
  | cons s0 rest ih =>
    intro skip hclean b hb
    have hrest : ∀ c ∈ rest, c ≠ dot ∧ c ≠ Separator :=
      fun c hc => hclean c (List.mem_cons_of_mem _ hc)
    cases skip with
    | succ k => exact ih k hrest b (by simpa [stringsMap] using hb)
    | zero =>
      rw [stringsMap, List.mem_append] at hb
      rcases hb with hb | hb
      · have h0 := hclean s0 (List.mem_cons_self _ _)
        have hr : (DecodeRuneInString (s0 :: rest)).1 ≠ dot ∧
            (DecodeRuneInString (s0 :: rest)).1 ≠ Separator := by
          by_cases ha : s0 < 0x80
          · rw [decodeRune_ascii s0 rest ha]; exact h0
          · have := decodeRune_ge s0 rest (by omega)
            simp only [dot, Separator]; omega
        have hl := unicodeToLower_clean caseTable hT _ hr.1 hr.2
        exact appendRune_clean _ hl.1 hl.2 b hb
      · exact ih _ hrest b hb

theorem stringsToLower_clean (caseTable : Nat → Nat) (hT : CaseTableOK caseTable)
    (s : GoString) (hclean : ∀ c ∈ s, c ≠ dot ∧ c ≠ Separator) :
    ∀ b ∈ stringsToLower caseTable s, b ≠ dot ∧ b ≠ Separator := by
  unfold stringsToLower
  split_ifs
  · intro b hb
    obtain ⟨c, hc, rfl⟩ := List.mem_map.1 hb
    exact lowerByte_clean c (hclean c hc).1 (hclean c hc).2
  · exact hclean
  · exact stringsMap_clean caseTable hT s 0 hclean

theorem stringsToLower_dot_cons (caseTable : Nat → Nat) (suf : GoString) :
    stringsToLower caseTable (dot :: suf) = dot :: stringsToLower caseTable suf := by
  have hdec : DecodeRuneInString (dot :: suf) = (dot, 1) := decodeRune_ascii dot suf (by decide)
  have hap : AppendRune (unicodeToLower caseTable dot) = [dot] := by
    simp [unicodeToLower, AppendRune, dot]
  have hlb : lowerByte dot = dot := by decide
  unfold stringsToLower
  have hall : (dot :: suf).all (fun c => decide (c < 0x80)) = suf.all (fun c => decide (c < 0x80)) := by
    simp [List.all_cons, dot]
  have hany : (dot :: suf).any (fun c => decide (0x41 ≤ c ∧ c ≤ 0x5A))
      = suf.any (fun c => decide (0x41 ≤ c ∧ c ≤ 0x5A)) := by
    simp [List.any_cons, dot]
  rw [hall, hany]
  split_ifs
  · rw [List.map_cons, hlb]
  · rfl
  · rw [stringsMap, hdec, hap]; rfl

theorem stringsToLower_nil (caseTable : Nat → Nat) : stringsToLower caseTable [] = [] := by
  simp [stringsToLower]

theorem stringsTrimPrefix_dot_cons (s : GoString) : stringsTrimPrefix (dot :: s) (lit ".") = s := by
  simp [stringsTrimPrefix, lit, List.isPrefixOf]

theorem stringsTrimPrefix_nil (pre : GoString) : stringsTrimPrefix [] pre = [] := by
  unfold stringsTrimPrefix; split_ifs <;> simp

/-! ## Lemmas: file-type detection -/

theorem firstRegularFile_skip_dirs (caseTable : Nat → Nat) (dirs : List DirEntry)
    (file : DirEntry) (rest : List DirEntry) (hdirs : ∀ d ∈ dirs, d.IsDir = true)
    (hfile : file.IsDir = false) :
    firstRegularFile caseTable (dirs ++ file :: rest) =
      some (stringsTrimPrefix (stringsToLower caseTable (filepathExt file.Name)) (lit ".")) := by
  induction dirs with
  | nil => simp [firstRegularFile, hfile]
  | cons d ds ih =>
    have hd : d.IsDir = true := hdirs d (List.mem_cons_self _ _)
    have := ih (fun x hx => hdirs x (List.mem_cons_of_mem _ hx))
    simpa [firstRegularFile, hd] using this

theorem firstRegularFile_eq_none (caseTable : Nat → Nat) (entries : List DirEntry) :
    firstRegularFile caseTable entries = none ↔ ∀ e ∈ entries, e.IsDir = true := by
  induction entries with
  | nil => simp [firstRegularFile]
  | cons e es ih =>
    cases he : e.IsDir <;> simp [firstRegularFile, he, ih]

theorem firstRegularFile_clean (caseTable : Nat → Nat) (hT : CaseTableOK caseTable)
    (entries : List DirEntry) (tag : GoString)
    (h : firstRegularFile caseTable entries = some tag) :
    ∀ b ∈ tag, b ≠ dot ∧ b ≠ Separator := by
  induction entries with
  | nil => simp [firstRegularFile] at h
  | cons e es ih =>
    cases he : e.IsDir with
    | true => exact ih (by simpa [firstRegularFile, he] using h)
    | false =>
      have ht : stringsTrimPrefix (stringsToLower caseTable (filepathExt e.Name)) (lit ".") = tag := by
        simpa [firstRegularFile, he] using h
      rcases filepathExt_shape e.Name with hnil | ⟨suf, hsuf, hclean⟩
      · rw [hnil, stringsToLower_nil, stringsTrimPrefix_nil] at ht
        subst ht; simp
      · rw [hsuf, stringsToLower_dot_cons, stringsTrimPrefix_dot_cons] at ht
        subst ht
        exact stringsToLower_clean caseTable hT suf hclean

theorem getFileTypeFromDir_ok (caseTable : Nat → Nat) (w : World) (dirPath tag : GoString)
    (h : getFileTypeFromDir caseTable w dirPath = (tag, none)) :
    (w.ReadDir dirPath).2 = none ∧ firstRegularFile caseTable (w.ReadDir dirPath).1 = some tag := by
  unfold getFileTypeFromDir at h
  rcases hr : w.ReadDir dirPath with ⟨entries, _ | err⟩
  · rw [hr] at h
    simp only at h
    cases hf : firstRegularFile caseTable entries with
    | none => rw [hf] at h; simp at h
    | some t => rw [hf] at h; simp at h; simp [h]
  · rw [hr] at h; simp at h

theorem detect_of_listing (caseTable : Nat → Nat) (w : World) (dirPath : GoString)
    (dirs : List DirEntry) (file : DirEntry) (rest : List DirEntry)
    (hlist : w.ReadDir dirPath = (dirs ++ file :: rest, none))
    (hdirs : ∀ d ∈ dirs, d.IsDir = true) (hfile : file.IsDir = false) :
    getFileTypeFromDir caseTable w dirPath =
      (stringsTrimPrefix (stringsToLower caseTable (filepathExt file.Name)) (lit "."), none) := by
  unfold getFileTypeFromDir
  rw [hlist]
  simp only [firstRegularFile_skip_dirs caseTable dirs file rest hdirs hfile]

/-! ## Lemmas: `filepath.Clean` -/

theorem cleanLoop_nil (rooted : Bool) (fuel : Nat) (out : GoString) (dotdot : Nat) :
    cleanLoop rooted fuel [] out dotdot = out := by
  cases fuel <;> rfl

theorem length_dropWhile_le (p : Nat → Bool) (l : GoString) :
    (l.dropWhile p).length ≤ l.length :=
  (List.dropWhile_suffix p).length_le

/-- The bound on the iterations of `cleanLoop` is immaterial once it is at
least the number of bytes still to be read: every iteration reads one. -/
theorem cleanLoop_fuel (rooted : Bool) :
    ∀ (f1 f2 : Nat) (rest out : GoString) (dotdot : Nat),
      rest.length ≤ f1 → rest.length ≤ f2 →
        cleanLoop rooted f1 rest out dotdot = cleanLoop rooted f2 rest out dotdot := by
  intro f1
  induction f1 with
  | zero =>
    intro f2 rest out dotdot h1 _
    have : rest = [] := List.length_eq_zero.1 (Nat.le_zero.1 h1)
    subst this
    rw [cleanLoop_nil, cleanLoop_nil]
  | succ k ih =>
    intro f2 rest out dotdot h1 h2
    cases rest with
    | nil => rw [cleanLoop_nil, cleanLoop_nil]
    | cons c rest =>
      obtain ⟨m, rfl⟩ : ∃ m, f2 = m + 1 := ⟨f2 - 1, by simp at h2; omega⟩
      simp only [List.length_cons, Nat.add_le_add_iff_right] at h1 h2
      have hd : (rest.drop 1).length ≤ rest.length := by simp
      rw [cleanLoop, cleanLoop]
      by_cases hs : IsPathSeparator c = true
      · rw [if_pos hs, if_pos hs]
        exact ih _ _ _ _ h1 h2
      · rw [if_neg hs, if_neg hs]
        have hc : (fun b => !IsPathSeparator b) c = true := by simpa using hs
        have hw : (c :: rest).dropWhile (fun b => !IsPathSeparator b)
            = rest.dropWhile (fun b => !IsPathSeparator b) := by
          rw [List.dropWhile_cons, if_pos hc]
        rw [hw]
        have := length_dropWhile_le (fun b => !IsPathSeparator b) rest
        split_ifs <;> exact ih _ _ _ _ (by omega) (by omega)

theorem takeWhile_all (p : Nat → Bool) (l : GoString) (h : ∀ c ∈ l, p c = true) :
    l.takeWhile p = l := by
  induction l with
  | nil => rfl
  | cons a l ih =>
    rw [List.takeWhile_cons, if_pos (h a (List.mem_cons_self _ _)),
      ih (fun c hc => h c (List.mem_cons_of_mem _ hc))]

theorem dropWhile_all (p : Nat → Bool) (l : GoString) (h : ∀ c ∈ l, p c = true) :
    l.dropWhile p = [] := by
  induction l with
  | nil => rfl
  | cons a l ih =>
    rw [List.dropWhile_cons, if_pos (h a (List.mem_cons_self _ _)),
      ih (fun c hc => h c (List.mem_cons_of_mem _ hc))]

theorem takeWhile_append_stop (p : Nat → Bool) (l : GoString) (s : Nat) (x : GoString)
    (h : ∀ c ∈ l, p c = true) (hs : p s = false) : (l ++ s :: x).takeWhile p = l := by
  induction l with
  | nil => simp [List.takeWhile_cons, hs]
  | cons a l ih =>
    rw [List.cons_append, List.takeWhile_cons, if_pos (h a (List.mem_cons_self _ _)),
      ih (fun c hc => h c (List.mem_cons_of_mem _ hc))]

theorem dropWhile_append_stop (p : Nat → Bool) (l : GoString) (s : Nat) (x : GoString)
    (h : ∀ c ∈ l, p c = true) (hs : p s = false) : (l ++ s :: x).dropWhile p = s :: x := by
  induction l with
  | nil => simp [List.dropWhile_cons, hs]
  | cons a l ih =>
    rw [List.cons_append, List.dropWhile_cons, if_pos (h a (List.mem_cons_self _ _)),
      ih (fun c hc => h c (List.mem_cons_of_mem _ hc))]

/-- One iteration of `cleanLoop` at a real path element `c :: el` (no
separator in it, not starting with a dot) that is followed by `tail`, which
is empty or starts with a separator. -/
theorem cleanLoop_element (rooted : Bool) (fuel : Nat) (c : Nat) (el tail out : GoString)
    (dotdot : Nat) (hc : c ≠ dot) (hel : ∀ b ∈ c :: el, b ≠ Separator)
    (htail : tail = [] ∨ ∃ x, tail = Separator :: x) :
    cleanLoop rooted (fuel + 1) (c :: el ++ tail) out dotdot =
      cleanLoop rooted fuel tail
        ((if (rooted ∧ out.length ≠ 1) ∨ (!rooted ∧ out.length ≠ 0) then out ++ [Separator]
          else out) ++ c :: el) dotdot := by
  have hp : ∀ b ∈ c :: el, (fun b => !IsPathSeparator b) b = true := by
    intro b hb
    simpa [IsPathSeparator] using hel b hb
  have hsep : ¬ IsPathSeparator c = true := by
    simpa [IsPathSeparator] using hel c (List.mem_cons_self _ _)
  have hstop : (fun b => !IsPathSeparator b) Separator = false := by decide
  have htd : (c :: el ++ tail).takeWhile (fun b => !IsPathSeparator b) = c :: el ∧
      (c :: el ++ tail).dropWhile (fun b => !IsPathSeparator b) = tail := by
    rcases htail with rfl | ⟨x, rfl⟩
    · rw [List.append_nil]
      exact ⟨takeWhile_all _ _ hp, dropWhile_all _ _ hp⟩
    · exact ⟨takeWhile_append_stop _ _ _ _ hp hstop, dropWhile_append_stop _ _ _ _ hp hstop⟩
  rw [List.cons_append] at htd ⊢
  rw [cleanLoop, if_neg hsep, if_neg (fun h => hc h.1), if_neg (fun h => hc h.1), htd.1, htd.2]

theorem cleanLoop_separator (rooted : Bool) (fuel : Nat) (rest out : GoString) (dotdot : Nat) :
    cleanLoop rooted (fuel + 1) (Separator :: rest) out dotdot =
      cleanLoop rooted fuel rest out dotdot := by
  rw [cleanLoop, if_pos (by decide)]

theorem filepathClean_converter (e : GoString) (c : Nat) (hc : c ≠ dot)
    (he : ∀ b ∈ c :: e, b ≠ Separator) :
    filepathClean (lit "../Converter/csv/" ++ c :: e) = lit "../Converter/csv/" ++ c :: e := by
  have hfuel := cleanLoop_fuel false (lit "../Converter/csv/" ++ c :: e).length
    ((lit "../Converter/csv/" ++ c :: e).length + 7) (lit "../Converter/csv/" ++ c :: e) [] 0
    (Nat.le_refl _) (Nat.le_add_right _ _)
  have h1 : cleanLoop false ((lit "../Converter/csv/" ++ c :: e).length + 7)
      (lit "../Converter/csv/" ++ c :: e) [] 0 = lit "../Converter/csv/" ++ c :: e := by
    generalize (lit "../Converter/csv/" ++ c :: e).length = n
    have e0 : lit "../Converter/csv/" ++ c :: e
        = dot :: dot :: Separator :: (lit "Converter" ++ Separator :: (lit "csv" ++ Separator :: (c :: e))) := rfl
    rw [e0]
    have s1 : cleanLoop false (n + 6 + 1)
        (dot :: dot :: Separator :: (lit "Converter" ++ Separator :: (lit "csv" ++ Separator :: (c :: e)))) [] 0
        = cleanLoop false (n + 6)
          (Separator :: (lit "Converter" ++ Separator :: (lit "csv" ++ Separator :: (c :: e)))) [dot, dot] 2 := by
      rw [cleanLoop]
      simp [IsPathSeparator]
    rw [show n + 7 = n + 6 + 1 from rfl, s1, cleanLoop_separator]
    have s2 := cleanLoop_element false (n + 4) 0x43 (lit "onverter")
      (Separator :: (lit "csv" ++ Separator :: (c :: e))) [dot, dot] 2 (by decide) (by decide)
      (Or.inr ⟨_, rfl⟩)
    rw [show lit "Converter" ++ Separator :: (lit "csv" ++ Separator :: (c :: e))
      = 0x43 :: lit "onverter" ++ Separator :: (lit "csv" ++ Separator :: (c :: e)) from rfl,
      show n + 5 = n + 4 + 1 from rfl, s2, cleanLoop_separator]
    have s3 := cleanLoop_element false (n + 2) 0x63 (lit "sv")
      (Separator :: (c :: e)) ([dot, dot] ++ [Separator] ++ 0x43 :: lit "onverter") 2
      (by decide) (by decide) (Or.inr ⟨_, rfl⟩)
    rw [show lit "csv" ++ Separator :: (c :: e) = 0x63 :: lit "sv" ++ Separator :: (c :: e) from rfl,
      if_pos (by decide),
      show n + 3 = n + 2 + 1 from rfl, s3, cleanLoop_separator]
    have s4 := cleanLoop_element false n c e []
      ([dot, dot] ++ [Separator] ++ 0x43 :: lit "onverter" ++ [Separator] ++ 0x63 :: lit "sv") 2
      hc he (Or.inl rfl)
    rw [List.append_nil] at s4
    rw [if_pos (by decide), show n + 1 = n + 1 from rfl, s4, cleanLoop_nil, if_pos (by decide)]
    rfl
  unfold filepathClean
  rw [if_neg (by simp [lit])]
  simp only
  have hr : IsPathSeparator ((lit "../Converter/csv/" ++ c :: e).getD 0 0) = false := rfl
  rw [hr]
  simp only [Bool.false_eq_true, if_false]
  rw [hfuel, h1, if_neg (by simp [lit])]

theorem converterCSVPath_eq (t : GoString) (h : ∀ c ∈ t, c ≠ Separator) :
    Cli.converterCSVPath t = lit "../Converter/csv/" ++ (lit "ms_conversions_" ++ t ++ lit ".csv") := by
  have hp : ∀ c ∈ lit "ms_conversions_" ++ t ++ lit ".csv", c ≠ Separator := by
    intro c hc
    simp only [List.mem_append] at hc
    rcases hc with (hc | hc) | hc
    · revert c; decide
    · exact h c hc
    · revert c; decide
  unfold Cli.converterCSVPath filepathJoin
  rw [if_pos (by decide)]
  have hj : stringsJoin [lit "..", lit "Converter", lit "csv", lit "ms_conversions_" ++ t ++ lit ".csv"] [Separator]
      = lit "../Converter/csv/" ++ (lit "ms_conversions_" ++ t ++ lit ".csv") := by
    simp [stringsJoin, List.intercalate, lit]
  rw [hj]
  exact filepathClean_converter (lit "s_conversions_" ++ t ++ lit ".csv") 0x6D (by decide) hp

/-! ## Lemmas: `filepath.Base` and `filepath.Dir` -/

theorem lastSeparator_skip (pre suf : GoString) (h : ∀ c ∈ suf, c ≠ Separator) :
    ∀ k, k ≤ suf.length →
      lastSeparator (pre ++ suf) (pre.length + k) = lastSeparator (pre ++ suf) pre.length := by
  intro k
  induction k with
  | zero => intro _; rfl
  | succ k ih =>
    intro hk
    have hlt : k < suf.length := hk
    have hget : (pre ++ suf).getD (pre.length + k) 0 = suf[k] := by
      rw [List.getD_append_right _ _ _ _ (by omega), Nat.add_sub_cancel_left,
        List.getD_eq_getElem _ _ hlt]
    have hs : ¬ IsPathSeparator suf[k] = true :=
      fun e => h _ (List.getElem_mem hlt) ((isPathSeparator_iff _).1 e)
    rw [← Nat.add_assoc, lastSeparator, hget, if_neg hs]
    exact ih (by omega)

theorem lastSeparator_converter (suf : GoString) (h : ∀ c ∈ suf, c ≠ Separator) :
    lastSeparator (lit "../Converter/csv/" ++ suf) (lit "../Converter/csv/" ++ suf).length = 17 := by
  rw [List.length_append, lastSeparator_skip _ suf h suf.length (Nat.le_refl _)]
  rfl

theorem stripTrailing_converter (c : Nat) (e : GoString) (h : ∀ b ∈ c :: e, b ≠ Separator) :
    stripTrailing (lit "../Converter/csv/" ++ c :: e) (lit "../Converter/csv/" ++ c :: e).length
      = (lit "../Converter/csv/" ++ c :: e).length := by
  have hl : (lit "../Converter/csv/" ++ c :: e).length = (lit "../Converter/csv/").length + e.length + 1 := by
    simp [Nat.add_assoc]
  have hlt : e.length < (c :: e).length := by simp
  have hget : (lit "../Converter/csv/" ++ c :: e).getD ((lit "../Converter/csv/").length + e.length) 0
      = (c :: e)[e.length] := by
    rw [List.getD_append_right _ _ _ _ (by omega), Nat.add_sub_cancel_left,
      List.getD_eq_getElem _ _ hlt]
  have hs : ¬ IsPathSeparator (c :: e)[e.length] = true :=
    fun x => h _ (List.getElem_mem hlt) ((isPathSeparator_iff _).1 x)
  rw [hl, stripTrailing, hget, if_neg hs]

theorem filepathBase_converter (c : Nat) (e : GoString) (h : ∀ b ∈ c :: e, b ≠ Separator) :
    filepathBase (lit "../Converter/csv/" ++ c :: e) = c :: e := by
  unfold filepathBase
  rw [if_neg (by simp [lit])]
  simp only
  rw [stripTrailing_converter c e h, List.take_length, lastSeparator_converter _ h,
    show (17 : Nat) = (lit "../Converter/csv/").length from rfl, List.drop_left,
    if_neg (by simp)]

theorem filepathDir_converter (suf : GoString) (h : ∀ c ∈ suf, c ≠ Separator) :
    filepathDir (lit "../Converter/csv/" ++ suf) = lit "../Converter/csv" := by
  unfold filepathDir
  rw [lastSeparator_converter _ h, show (17 : Nat) = (lit "../Converter/csv/").length from rfl,
    List.take_left]
  decide

/-! ## Lemmas: package `flag` -/

namespace Cli

theorem parseOne_seen_length (args : List GoString) (inputDir outputDir : GoString)
    (rest : List GoString) (i o : GoString)
    (h : parseOne args inputDir outputDir = .seen rest i o) : rest.length < args.length := by
  cases args with
  | nil => cases h
  | cons s tail =>
    cases tail with
    | nil =>
      simp only [parseOne] at h
      split_ifs at h <;> cases h <;> simp only [List.length_cons] <;> omega
    | cons next tail =>
      simp only [parseOne] at h
      split_ifs at h <;> cases h <;> simp only [List.length_cons] <;> omega

/-- The bound on the iterations of `parseLoop` is immaterial once it is at
least the number of arguments left: every parsed flag reads one. -/
theorem parseLoop_fuel (args0 : GoString) :
    ∀ (f1 f2 : Nat) (args : List GoString) (inputDir outputDir : GoString),
      args.length ≤ f1 → args.length ≤ f2 →
        parseLoop args0 f1 args inputDir outputDir =
          parseLoop args0 f2 args inputDir outputDir := by
  have hnil : ∀ (f : Nat) (i o : GoString), parseLoop args0 f [] i o = .returned i o := by
    intro f i o
    cases f <;> rfl
  intro f1
  induction f1 with
  | zero =>
    intro f2 args i o h1 _
    have : args = [] := List.length_eq_zero.1 (Nat.le_zero.1 h1)
    subst this
    rw [hnil, hnil]
  | succ k ih =>
    intro f2 args i o h1 h2
    cases f2 with
    | zero =>
      have : args = [] := List.length_eq_zero.1 (Nat.le_zero.1 h2)
      subst this
      rw [hnil, hnil]
    | succ m =>
      rw [parseLoop, parseLoop]
      cases hone : parseOne args i o with
      | seen rest i2 o2 =>
        have := parseOne_seen_length args i o rest i2 o2 hone
        exact ih m rest i2 o2 (by omega) (by omega)
      | stop => rfl
      | help => rfl
      | failed msg => rfl

/-- The messages of `failf` in `parseOne`. -/
theorem parseOne_failed (args : List GoString) (inputDir outputDir msg : GoString)
    (h : parseOne args inputDir outputDir = .failed msg) :
    ∃ t, msg = lit "bad flag syntax: " ++ t ∨
      msg = lit "flag provided but not defined: -" ++ t ∨
      msg = lit "flag needs an argument: -" ++ t := by
  cases args with
  | nil => cases h
  | cons s tail =>
    cases tail with
    | nil =>
      simp only [parseOne] at h
      split_ifs at h <;> cases h <;> first
        | exact ⟨_, Or.inl rfl⟩
        | exact ⟨_, Or.inr (Or.inl rfl)⟩
        | exact ⟨_, Or.inr (Or.inr rfl)⟩
    | cons next tail =>
      simp only [parseOne] at h
      split_ifs at h <;> cases h <;> first
        | exact ⟨_, Or.inl rfl⟩
        | exact ⟨_, Or.inr (Or.inl rfl)⟩

/-- When `flag.Parse` ends the process, it does so with status 0 after the
usage text, or with status 2 after a message of `failf` and the usage
text. -/
theorem parseLoop_exited (args0 : GoString) :
    ∀ (fuel : Nat) (args : List GoString) (inputDir outputDir : GoString)
      (writes : List GoString) (code : Nat),
      parseLoop args0 fuel args inputDir outputDir = .exited writes code →
        (code = 0 ∧ writes = flagUsage args0) ∨
        (code = 2 ∧ ∃ t, writes = (lit "bad flag syntax: " ++ t ++ lit "\n") :: flagUsage args0 ∨
          writes = (lit "flag provided but not defined: -" ++ t ++ lit "\n") :: flagUsage args0 ∨
          writes = (lit "flag needs an argument: -" ++ t ++ lit "\n") :: flagUsage args0) := by
  intro fuel
  induction fuel with
  | zero => intro args i o writes code h; cases h
  | succ k ih =>
    intro args i o writes code h
    rw [parseLoop] at h
    cases hone : parseOne args i o with
    | seen rest i2 o2 => rw [hone] at h; exact ih rest i2 o2 writes code h
    | stop => rw [hone] at h; cases h
    | help => rw [hone] at h; cases h; exact Or.inl ⟨rfl, rfl⟩
    | failed msg =>
      rw [hone] at h
      cases h
      obtain ⟨t, ht | ht | ht⟩ := parseOne_failed args i o msg hone
      · exact Or.inr ⟨rfl, t, Or.inl (by rw [ht])⟩
      · exact Or.inr ⟨rfl, t, Or.inr (Or.inl (by rw [ht]))⟩
      · exact Or.inr ⟨rfl, t, Or.inr (Or.inr (by rw [ht]))⟩

/-- The command line `-i <inputDir> -o <outputDir>` sets the two flag
variables to any two strings. -/
theorem flagParse_both (args0 inputDir outputDir : GoString) :
    flagParse args0 [lit "-i", inputDir, lit "-o", outputDir] = .returned inputDir outputDir :=
  rfl

/-- A command line without flags leaves both flag variables empty. -/
theorem flagParse_nil (args0 : GoString) : flagParse args0 [] = .returned (lit "") (lit "") :=
  rfl

theorem main_exited (caseTable : Nat → Nat) (w : World) (arguments : List GoString)
    (writes : List GoString) (code : Nat)
    (hp : flagParse w.args0 arguments = .exited writes code) :
    main caseTable w arguments = { trace := writes.map Event.stderr, exit := code } := by
  unfold main
  rw [hp]

end Cli

/-! ## Lemmas: the outcomes of the CLI coordinator -/

namespace Cli

theorem main_usage (caseTable : Nat → Nat) (w : World) (arguments : List GoString)
    (inputDir outputDir : GoString)
    (hp : flagParse w.args0 arguments = .returned inputDir outputDir)
    (h0 : inputDir = lit "" ∨ outputDir = lit "") :
    main caseTable w arguments =
      { trace := [.stderr (lit "Usage: " ++ w.args0
                    ++ lit " -i <input_directory> -o <output_directory>\n"),
                  .stderr printDefaults],
        exit := 1 } := by
  unfold main
  rw [hp]
  dsimp only
  rw [if_pos h0]

theorem main_detect_fail (caseTable : Nat → Nat) (w : World) (arguments : List GoString)
    (inputDir outputDir : GoString)
    (hp : flagParse w.args0 arguments = .returned inputDir outputDir)
    (h0 : ¬ (inputDir = lit "" ∨ outputDir = lit "")) (t e1 : GoString)
    (h1 : getFileTypeFromDir caseTable w inputDir = (t, some e1)) :
    main caseTable w arguments =
      { trace := [.readDir inputDir (w.ReadDir inputDir).1 (w.ReadDir inputDir).2,
                  .stderr (Sprintln [lit "Failed to detect file type:", e1])],
        exit := 1 } := by
  unfold main
  rw [hp]
  dsimp only
  rw [if_neg h0]
  simp only [h1, List.cons_append, List.nil_append]

theorem main_mkdir_fail (caseTable : Nat → Nat) (w : World) (arguments : List GoString)
    (inputDir outputDir : GoString)
    (hp : flagParse w.args0 arguments = .returned inputDir outputDir)
    (h0 : ¬ (inputDir = lit "" ∨ outputDir = lit "")) (tag : GoString)
    (h1 : getFileTypeFromDir caseTable w inputDir = (tag, none)) (e2 : GoString)
    (h2 : w.MkdirAll outputDir 0o755 = some e2) :
    main caseTable w arguments =
      { trace := [.readDir inputDir (w.ReadDir inputDir).1 (w.ReadDir inputDir).2,
                  .mkdirAll outputDir 0o755 (some e2),
                  .stderr (Sprintln [lit "Failed to create output dir:", e2])],
        exit := 1 } := by
  unfold main
  rw [hp]
  dsimp only
  rw [if_neg h0]
  simp only [h1, h2, List.cons_append, List.nil_append]

theorem main_executable_fail (caseTable : Nat → Nat) (w : World) (arguments : List GoString)
    (inputDir outputDir : GoString)
    (hp : flagParse w.args0 arguments = .returned inputDir outputDir)
    (h0 : ¬ (inputDir = lit "" ∨ outputDir = lit "")) (tag : GoString)
    (h1 : getFileTypeFromDir caseTable w inputDir = (tag, none))
    (h2 : w.MkdirAll outputDir 0o755 = none) (p e3 : GoString)
    (h3 : w.Executable = (p, some e3)) :
    main caseTable w arguments =
      { trace := [.readDir inputDir (w.ReadDir inputDir).1 (w.ReadDir inputDir).2,
                  .mkdirAll outputDir 0o755 none,
                  .executable p (some e3),
                  .stderr (Sprintln [lit "Failed to get executable path:", e3])],
        exit := 1 } := by
  unfold main
  rw [hp]
  dsimp only
  rw [if_neg h0]
  simp only [h1, h2, h3, List.cons_append, List.nil_append]

theorem main_extractor_fail (caseTable : Nat → Nat) (w : World) (arguments : List GoString)
    (inputDir outputDir : GoString)
    (hp : flagParse w.args0 arguments = .returned inputDir outputDir)
    (h0 : ¬ (inputDir = lit "" ∨ outputDir = lit "")) (tag : GoString)
    (h1 : getFileTypeFromDir caseTable w inputDir = (tag, none))
    (h2 : w.MkdirAll outputDir 0o755 = none) (p : GoString)
    (h3 : w.Executable = (p, none)) (data e4 : GoString)
    (h4 : w.Command (filepathJoin [filepathDir p, lit "dist/extractor_bin"])
      [inputDir, outputDir] = (data, some e4)) :
    main caseTable w arguments =
      { trace := [.readDir inputDir (w.ReadDir inputDir).1 (w.ReadDir inputDir).2,
                  .mkdirAll outputDir 0o755 none,
                  .executable p none,
                  .stdout (Sprintln [lit "=== Running Python extractor ==="]),
                  .command (filepathJoin [filepathDir p, lit "dist/extractor_bin"])
                    [inputDir, outputDir] true data (some e4),
                  .stderr (Sprintln [lit "Extractor failed due to:", e4])],
        exit := 1 } := by
  unfold main
  rw [hp]
  dsimp only
  rw [if_neg h0]
  simp only [h1, h2, h3, runCmd, h4, List.cons_append, List.nil_append]

theorem main_converter_fail (caseTable : Nat → Nat) (w : World) (arguments : List GoString)
    (inputDir outputDir : GoString)
    (hp : flagParse w.args0 arguments = .returned inputDir outputDir)
    (h0 : ¬ (inputDir = lit "" ∨ outputDir = lit "")) (tag : GoString)
    (h1 : getFileTypeFromDir caseTable w inputDir = (tag, none))
    (h2 : w.MkdirAll outputDir 0o755 = none) (p : GoString)
    (h3 : w.Executable = (p, none)) (data : GoString)
    (h4 : w.Command (filepathJoin [filepathDir p, lit "dist/extractor_bin"])
      [inputDir, outputDir] = (data, none)) (res e5 : GoString)
    (h5 : w.Convert data (converterCSVPath tag) (lit "") (lit "")
      (outputDir ++ lit "/converted.json") = (res, some e5)) :
    main caseTable w arguments =
      { trace := [.readDir inputDir (w.ReadDir inputDir).1 (w.ReadDir inputDir).2,
                  .mkdirAll outputDir 0o755 none,
                  .executable p none,
                  .stdout (Sprintln [lit "=== Running Python extractor ==="]),
                  .command (filepathJoin [filepathDir p, lit "dist/extractor_bin"])
                    [inputDir, outputDir] true data none,
                  .stdout (Sprintln [lit "=== Running Go converter ==="]),
                  .convert data (converterCSVPath tag) (lit "") (lit "")
                    (outputDir ++ lit "/converted.json") res (some e5),
                  .stderr (Sprintln [lit "Converter failed due to:", e5])],
        exit := 1 } := by
  unfold main
  rw [hp]
  dsimp only
  rw [if_neg h0]
  simp only [h1, h2, h3, runCmd, h4, h5, List.cons_append, List.nil_append]

theorem main_success (caseTable : Nat → Nat) (w : World) (arguments : List GoString)
    (inputDir outputDir : GoString)
    (hp : flagParse w.args0 arguments = .returned inputDir outputDir)
    (h0 : ¬ (inputDir = lit "" ∨ outputDir = lit "")) (tag : GoString)
    (h1 : getFileTypeFromDir caseTable w inputDir = (tag, none))
    (h2 : w.MkdirAll outputDir 0o755 = none) (p : GoString)
    (h3 : w.Executable = (p, none)) (data : GoString)
    (h4 : w.Command (filepathJoin [filepathDir p, lit "dist/extractor_bin"])
      [inputDir, outputDir] = (data, none)) (res : GoString)
    (h5 : w.Convert data (converterCSVPath tag) (lit "") (lit "")
      (outputDir ++ lit "/converted.json") = (res, none)) :
    main caseTable w arguments =
      { trace := [.readDir inputDir (w.ReadDir inputDir).1 (w.ReadDir inputDir).2,
                  .mkdirAll outputDir 0o755 none,
                  .executable p none,
                  .stdout (Sprintln [lit "=== Running Python extractor ==="]),
                  .command (filepathJoin [filepathDir p, lit "dist/extractor_bin"])
                    [inputDir, outputDir] true data none,
                  .stdout (Sprintln [lit "=== Running Go converter ==="]),
                  .convert data (converterCSVPath tag) (lit "") (lit "")
                    (outputDir ++ lit "/converted.json") res none,
                  .stdout (Sprintln [lit "\n=== MS Reader results ==="]),
                  .stdout (Sprintln [res])],
        exit := 0 } := by
  unfold main
  rw [hp]
  dsimp only
  rw [if_neg h0]
  simp only [h1, h2, h3, runCmd, h4, h5, List.cons_append, List.nil_append]

/-- Every run of the CLI coordinator in which `flag.Parse` returned is one
of seven: the usage exit, a
failure of detection, of `os.MkdirAll`, of `os.Executable`, of the
extractor, of the converter, or the successful run. -/
theorem main_cases (caseTable : Nat → Nat) (w : World) (arguments : List GoString)
    (inputDir outputDir : GoString)
    (hp : flagParse w.args0 arguments = .returned inputDir outputDir) :
    ((inputDir = lit "" ∨ outputDir = lit "") ∧
      main caseTable w arguments =
        { trace := [.stderr (lit "Usage: " ++ w.args0
                      ++ lit " -i <input_directory> -o <output_directory>\n"),
                    .stderr printDefaults],
          exit := 1 }) ∨
    (¬ (inputDir = lit "" ∨ outputDir = lit "") ∧
      ((∃ t e1, getFileTypeFromDir caseTable w inputDir = (t, some e1) ∧
        main caseTable w arguments =
          { trace := [.readDir inputDir (w.ReadDir inputDir).1 (w.ReadDir inputDir).2,
                      .stderr (Sprintln [lit "Failed to detect file type:", e1])],
            exit := 1 }) ∨
      (∃ tag, getFileTypeFromDir caseTable w inputDir = (tag, none) ∧
        ((∃ e2, w.MkdirAll outputDir 0o755 = some e2 ∧
          main caseTable w arguments =
            { trace := [.readDir inputDir (w.ReadDir inputDir).1 (w.ReadDir inputDir).2,
                        .mkdirAll outputDir 0o755 (some e2),
                        .stderr (Sprintln [lit "Failed to create output dir:", e2])],
              exit := 1 }) ∨
        (w.MkdirAll outputDir 0o755 = none ∧
          ((∃ p e3, w.Executable = (p, some e3) ∧
            main caseTable w arguments =
              { trace := [.readDir inputDir (w.ReadDir inputDir).1 (w.ReadDir inputDir).2,
                          .mkdirAll outputDir 0o755 none,
                          .executable p (some e3),
                          .stderr (Sprintln [lit "Failed to get executable path:", e3])],
                exit := 1 }) ∨
          (∃ p, w.Executable = (p, none) ∧
            ((∃ data e4, w.Command (filepathJoin [filepathDir p, lit "dist/extractor_bin"])
                [inputDir, outputDir] = (data, some e4) ∧
              main caseTable w arguments =
                { trace := [.readDir inputDir (w.ReadDir inputDir).1 (w.ReadDir inputDir).2,
                            .mkdirAll outputDir 0o755 none,
                            .executable p none,
                            .stdout (Sprintln [lit "=== Running Python extractor ==="]),
                            .command (filepathJoin [filepathDir p, lit "dist/extractor_bin"])
                              [inputDir, outputDir] true data (some e4),
                            .stderr (Sprintln [lit "Extractor failed due to:", e4])],
                  exit := 1 }) ∨
            (∃ data, w.Command (filepathJoin [filepathDir p, lit "dist/extractor_bin"])
                [inputDir, outputDir] = (data, none) ∧
              ((∃ res e5, w.Convert data (converterCSVPath tag) (lit "") (lit "")
                  (outputDir ++ lit "/converted.json") = (res, some e5) ∧
                main caseTable w arguments =
                  { trace := [.readDir inputDir (w.ReadDir inputDir).1 (w.ReadDir inputDir).2,
                              .mkdirAll outputDir 0o755 none,
                              .executable p none,
                              .stdout (Sprintln [lit "=== Running Python extractor ==="]),
                              .command (filepathJoin [filepathDir p, lit "dist/extractor_bin"])
                                [inputDir, outputDir] true data none,
                              .stdout (Sprintln [lit "=== Running Go converter ==="]),
                              .convert data (converterCSVPath tag) (lit "") (lit "")
                                (outputDir ++ lit "/converted.json") res (some e5),
                              .stderr (Sprintln [lit "Converter failed due to:", e5])],
                    exit := 1 }) ∨
              (∃ res, w.Convert data (converterCSVPath tag) (lit "") (lit "")
                  (outputDir ++ lit "/converted.json") = (res, none) ∧
                main caseTable w arguments =
                  { trace := [.readDir inputDir (w.ReadDir inputDir).1 (w.ReadDir inputDir).2,
                              .mkdirAll outputDir 0o755 none,
                              .executable p none,
                              .stdout (Sprintln [lit "=== Running Python extractor ==="]),
                              .command (filepathJoin [filepathDir p, lit "dist/extractor_bin"])
                                [inputDir, outputDir] true data none,
                              .stdout (Sprintln [lit "=== Running Go converter ==="]),
                              .convert data (converterCSVPath tag) (lit "") (lit "")
                                (outputDir ++ lit "/converted.json") res none,
                              .stdout (Sprintln [lit "\n=== MS Reader results ==="]),
                              .stdout (Sprintln [res])],
                    exit := 0 }))))))))))) := by
  by_cases h0 : inputDir = lit "" ∨ outputDir = lit ""
  · exact Or.inl ⟨h0, main_usage _ _ _ _ _ hp h0⟩
  refine Or.inr ⟨h0, ?_⟩
  rcases h1 : getFileTypeFromDir caseTable w inputDir with ⟨tag, _ | e1⟩
  swap
  · exact Or.inl ⟨tag, e1, rfl, main_detect_fail _ _ _ _ _ hp h0 _ _ h1⟩
  refine Or.inr ⟨tag, rfl, ?_⟩
  rcases h2 : w.MkdirAll outputDir 0o755 with _ | e2
  swap
  · exact Or.inl ⟨e2, rfl, main_mkdir_fail _ _ _ _ _ hp h0 _ h1 _ h2⟩
  refine Or.inr ⟨rfl, ?_⟩
  rcases h3 : w.Executable with ⟨p, _ | e3⟩
  swap
  · exact Or.inl ⟨p, e3, rfl, main_executable_fail _ _ _ _ _ hp h0 _ h1 h2 _ _ h3⟩
  refine Or.inr ⟨p, rfl, ?_⟩
  rcases h4 : w.Command (filepathJoin [filepathDir p, lit "dist/extractor_bin"])
    [inputDir, outputDir] with ⟨data, _ | e4⟩
  swap
  · exact Or.inl ⟨data, e4, rfl, main_extractor_fail _ _ _ _ _ hp h0 _ h1 h2 _ h3 _ _ h4⟩
  refine Or.inr ⟨data, rfl, ?_⟩
  rcases h5 : w.Convert data (converterCSVPath tag) (lit "") (lit "")
    (outputDir ++ lit "/converted.json") with ⟨res, _ | e5⟩
  swap
  · exact Or.inl ⟨res, e5, rfl, main_converter_fail _ _ _ _ _ hp h0 _ h1 h2 _ h3 _ h4 _ _ h5⟩
  exact Or.inr ⟨res, rfl, main_success _ _ _ _ _ hp h0 _ h1 h2 _ h3 _ h4 _ h5⟩

end Cli

namespace Orchestrator

theorem main_python_fail (w : World) (data e : GoString)
    (h : w.Command (lit "python3")
      [lit "-m", lit "extractor", lit "/app/input", lit "/app/output"] = (data, some e)) :
    main w =
      { trace := [.stdout (Sprintln [lit "Running Python extractor..."]),
                  .command (lit "python3")
                    [lit "-m", lit "extractor", lit "/app/input", lit "/app/output"] false data (some e),
                  .stderr (Sprintln [lit "Python extractor failed due to:", e])],
        exit := 1 } := by
  unfold main
  simp only [runCmd, h, List.cons_append, List.nil_append]

theorem main_go_fail (w : World) (data : GoString)
    (h : w.Command (lit "python3")
      [lit "-m", lit "extractor", lit "/app/input", lit "/app/output"] = (data, none))
    (res e : GoString)
    (h5 : w.Convert data (lit "") (lit "") (lit "") (lit "/app/output" ++ lit "/converted.json")
      = (res, some e)) :
    main w =
      { trace := [.stdout (Sprintln [lit "Running Python extractor..."]),
                  .command (lit "python3")
                    [lit "-m", lit "extractor", lit "/app/input", lit "/app/output"] false data none,
                  .stdout (Sprintln [lit "Running Go converter..."]),
                  .convert data (lit "") (lit "") (lit "") (lit "/app/output" ++ lit "/converted.json")
                    res (some e),
                  .stderr (Sprintln [lit "The Go converter failed due to:", e])],
        exit := 1 } := by
  unfold main
  simp only [runCmd, h, h5, List.cons_append, List.nil_append]

theorem main_done (w : World) (data : GoString)
    (h : w.Command (lit "python3")
      [lit "-m", lit "extractor", lit "/app/input", lit "/app/output"] = (data, none))
    (res : GoString)
    (h5 : w.Convert data (lit "") (lit "") (lit "") (lit "/app/output" ++ lit "/converted.json")
      = (res, none)) :
    main w =
      { trace := [.stdout (Sprintln [lit "Running Python extractor..."]),
                  .command (lit "python3")
                    [lit "-m", lit "extractor", lit "/app/input", lit "/app/output"] false data none,
                  .stdout (Sprintln [lit "Running Go converter..."]),
                  .convert data (lit "") (lit "") (lit "") (lit "/app/output" ++ lit "/converted.json")
                    res none,
                  .stdout (Sprintln [lit "\n", res])],
        exit := 0 } := by
  unfold main
  simp only [runCmd, h, h5, List.cons_append, List.nil_append]

/-- Every run of the fixed-path orchestrator is one of three. -/
theorem orchestrator_cases (w : World) :
    (∃ data e, main w =
      { trace := [.stdout (Sprintln [lit "Running Python extractor..."]),
                  .command (lit "python3")
                    [lit "-m", lit "extractor", lit "/app/input", lit "/app/output"] false data (some e),
                  .stderr (Sprintln [lit "Python extractor failed due to:", e])],
        exit := 1 }) ∨
    (∃ data res e, main w =
      { trace := [.stdout (Sprintln [lit "Running Python extractor..."]),
                  .command (lit "python3")
                    [lit "-m", lit "extractor", lit "/app/input", lit "/app/output"] false data none,
                  .stdout (Sprintln [lit "Running Go converter..."]),
                  .convert data (lit "") (lit "") (lit "") (lit "/app/output" ++ lit "/converted.json")
                    res (some e),
                  .stderr (Sprintln [lit "The Go converter failed due to:", e])],
        exit := 1 }) ∨
    (∃ data res, main w =
      { trace := [.stdout (Sprintln [lit "Running Python extractor..."]),
                  .command (lit "python3")
                    [lit "-m", lit "extractor", lit "/app/input", lit "/app/output"] false data none,
                  .stdout (Sprintln [lit "Running Go converter..."]),
                  .convert data (lit "") (lit "") (lit "") (lit "/app/output" ++ lit "/converted.json")
                    res none,
                  .stdout (Sprintln [lit "\n", res])],
        exit := 0 }) := by
  rcases h4 : w.Command (lit "python3")
    [lit "-m", lit "extractor", lit "/app/input", lit "/app/output"] with ⟨data, _ | e4⟩
  swap
  · exact Or.inl ⟨data, e4, main_python_fail w data e4 h4⟩
  rcases h5 : w.Convert data (lit "") (lit "") (lit "")
    (lit "/app/output" ++ lit "/converted.json") with ⟨res, _ | e5⟩
  swap
  · exact Or.inr (Or.inl ⟨data, res, e5, main_go_fail w data h4 res e5 h5⟩)
  · exact Or.inr (Or.inr ⟨data, res, main_done w data h4 res h5⟩)

end Orchestrator

/-! ## Lemmas: diagnostics and phases -/

theorem phaseOfDiagnostic_usage (args0 rest : GoString) :
    phaseOfDiagnostic (lit "Usage: " ++ args0 ++ rest) = some Phase.validation := by
  simp [phaseOfDiagnostic, lit, List.isPrefixOf]

theorem phaseOfDiagnostic_detect (e rest : GoString) :
    phaseOfDiagnostic (Sprintln [lit "Failed to detect file type:", e] ++ rest)
      = some Phase.detection := rfl

theorem phaseOfDiagnostic_mkdir (e rest : GoString) :
    phaseOfDiagnostic (Sprintln [lit "Failed to create output dir:", e] ++ rest)
      = some Phase.outputDir := rfl

theorem phaseOfDiagnostic_executable (e rest : GoString) :
    phaseOfDiagnostic (Sprintln [lit "Failed to get executable path:", e] ++ rest)
      = some Phase.extraction := rfl

theorem phaseOfDiagnostic_extractor (e rest : GoString) :
    phaseOfDiagnostic (Sprintln [lit "Extractor failed due to:", e] ++ rest)
      = some Phase.extraction := rfl

theorem phaseOfDiagnostic_converter (e rest : GoString) :
    phaseOfDiagnostic (Sprintln [lit "Converter failed due to:", e] ++ rest)
      = some Phase.conversion := rfl

/-- What `flag.Parse` writes when it ends the process names no phase. -/
theorem phaseOfDiagnostic_flag (args0 : GoString) (writes : List GoString) (code : Nat)
    (arguments : List GoString) (h : Cli.flagParse args0 arguments = .exited writes code) :
    (code = 0 ∨ code = 2) ∧ phaseOfDiagnostic writes.flatten = none := by
  rcases Cli.parseLoop_exited args0 _ _ _ _ writes code h with
    ⟨hc, hw⟩ | ⟨hc, t, hw | hw | hw⟩ <;>
    refine ⟨by omega, ?_⟩ <;> rw [hw] <;>
    simp [phaseOfDiagnostic, Cli.flagUsage, lit, List.isPrefixOf, List.flatten]

theorem stderr_of_writes (writes : List GoString) (code : Nat) :
    Run.stderr { trace := writes.map Event.stderr, exit := code } = writes.flatten := by
  simp only [Run.stderr, List.map_map]
  congr 1
  induction writes with
  | nil => rfl
  | cons a l ih => simpa [Event.stderrText] using ih

/-- What the failure of a phase entails in the run of the CLI coordinator. -/
theorem fails_key (caseTable : Nat → Nat) (w : World) (arguments : List GoString)
    (ph : Phase) (hf : Cli.Fails caseTable w arguments ph) :
    (Cli.main caseTable w arguments).exit = 1 ∧
    (∃ d, (Cli.main caseTable w arguments).trace.getLast? = some (Event.stderr d)) ∧
    phaseOfDiagnostic (Cli.main caseTable w arguments).stderr = some ph ∧
    ∀ ev ∈ (Cli.main caseTable w arguments).trace, ∀ q, ev.phase = some q →
      q.rank ≤ ph.rank := by
  cases hp : Cli.flagParse w.args0 arguments with
  | exited writes code =>
    have hm := Cli.main_exited caseTable w arguments writes code hp
    cases ph <;> simp only [Cli.Fails, hm] at hf <;> simp [hp] at hf
  | returned inputDir outputDir =>
  rcases Cli.main_cases caseTable w arguments inputDir outputDir hp with
    ⟨h0, h⟩ | ⟨h0, ⟨t, e1, h1, h⟩ | ⟨tag, h1, ⟨e2, h2, h⟩ | ⟨h2, ⟨p, e3, h3, h⟩ | ⟨p, h3,
      ⟨data, e4, h4, h⟩ | ⟨data, h4, ⟨res, e5, h5, h⟩ | ⟨res, h5, h⟩⟩⟩⟩⟩⟩
  · cases ph
    case validation =>
      rw [h]
      refine ⟨rfl, ⟨_, rfl⟩, ?_, ?_⟩
      · simp only [Run.stderr, List.map, Event.stderrText, List.flatten, List.append_nil,
          List.append_assoc]
        exact phaseOfDiagnostic_usage _ _
      · simp [Event.phase]
    all_goals
      simp only [Cli.Fails, h] at hf
      simp at hf
  · cases ph
    case validation =>
      obtain ⟨i1, o1, hq, hv⟩ := hf
      rw [hp] at hq
      cases hq
      exact absurd hv h0
    case detection =>
      rw [h]
      refine ⟨rfl, ⟨_, rfl⟩, phaseOfDiagnostic_detect _ _, ?_⟩
      simp [Event.phase, Phase.rank]
    all_goals
      simp only [Cli.Fails, h, hp] at hf
      simp [h0, h1] at hf
  · cases ph
    case validation =>
      obtain ⟨i1, o1, hq, hv⟩ := hf
      rw [hp] at hq
      cases hq
      exact absurd hv h0
    case outputDir =>
      rw [h]
      refine ⟨rfl, ⟨_, rfl⟩, phaseOfDiagnostic_mkdir _ _, ?_⟩
      simp [Event.phase, Phase.rank]
    all_goals
      simp only [Cli.Fails, h, hp] at hf
      simp [h0, h1] at hf
  · cases ph
    case validation =>
      obtain ⟨i1, o1, hq, hv⟩ := hf
      rw [hp] at hq
      cases hq
      exact absurd hv h0
    case extraction =>
      rw [h]
      refine ⟨rfl, ⟨_, rfl⟩, phaseOfDiagnostic_executable _ _, ?_⟩
      simp [Event.phase, Phase.rank]
    all_goals
      simp only [Cli.Fails, h, hp] at hf
      simp [h0, h1] at hf
  · cases ph
    case validation =>
      obtain ⟨i1, o1, hq, hv⟩ := hf
      rw [hp] at hq
      cases hq
      exact absurd hv h0
    case extraction =>
      rw [h]
      refine ⟨rfl, ⟨_, rfl⟩, phaseOfDiagnostic_extractor _ _, ?_⟩
      simp [Event.phase, Phase.rank]
    all_goals
      simp only [Cli.Fails, h, hp] at hf
      simp [h0, h1] at hf
  · cases ph
    case validation =>
      obtain ⟨i1, o1, hq, hv⟩ := hf
      rw [hp] at hq
      cases hq
      exact absurd hv h0
    case conversion =>
      rw [h]
      refine ⟨rfl, ⟨_, rfl⟩, phaseOfDiagnostic_converter _ _, ?_⟩
      simp [Event.phase, Phase.rank]
    all_goals
      simp only [Cli.Fails, h, hp] at hf
      simp [h0, h1] at hf
  · cases ph
    case validation =>
      obtain ⟨i1, o1, hq, hv⟩ := hf
      rw [hp] at hq
      cases hq
      exact absurd hv h0
    all_goals
      simp only [Cli.Fails, h, hp] at hf
      simp [h0, h1] at hf

theorem plainTable_ok : CaseTableOK plainTable := by
  intro r h
  simp only [plainTable, dot, Separator]
  omega

theorem mem_clean_iff (t : GoString) :
    (∀ b ∈ t, b ≠ dot ∧ b ≠ Separator) ↔ dot ∉ t ∧ Separator ∉ t := by
  constructor
  · intro h
    exact ⟨fun hd => (h _ hd).1 rfl, fun hs => (h _ hs).2 rfl⟩
  · rintro ⟨hd, hs⟩ b hb
    exact ⟨fun e => hd (e ▸ hb), fun e => hs (e ▸ hb)⟩

theorem tag_clean (caseTable : Nat → Nat) (hT : CaseTableOK caseTable) (w : World)
    (dirPath tag : GoString) (h : getFileTypeFromDir caseTable w dirPath = (tag, none)) :
    ∀ b ∈ tag, b ≠ dot ∧ b ≠ Separator :=
  firstRegularFile_clean caseTable hT _ tag (getFileTypeFromDir_ok caseTable w dirPath tag h).2

/-! ## Lemmas: coverage and evaluated examples -/

/-- A listing with an entry that is not a directory splits at its first
such entry: directories, then that entry, then the rest. -/
theorem listing_splits_at_first_file (entries : List DirEntry)
    (h : ∃ e ∈ entries, e.IsDir = false) :
    ∃ dirs file rest, entries = dirs ++ file :: rest ∧ (∀ d ∈ dirs, d.IsDir = true) ∧
      file.IsDir = false := by
  induction entries with
  | nil => obtain ⟨e, he, _⟩ := h; cases he
  | cons a l ih =>
    cases ha : a.IsDir with
    | false => exact ⟨[], a, l, rfl, by simp, ha⟩
    | true =>
      obtain ⟨e, he, hfile⟩ := h
      rcases List.mem_cons.1 he with rfl | he
      · rw [ha] at hfile; cases hfile
      · obtain ⟨dirs, file, rest, hsplit, hdirs, hf⟩ := ih ⟨e, he, hfile⟩
        refine ⟨a :: dirs, file, rest, by rw [hsplit]; rfl, ?_, hf⟩
        intro d hd
        rcases List.mem_cons.1 hd with rfl | hd
        · exact ha
        · exact hdirs d hd

/-- The tag of some file names, evaluated: several dots, a hidden file, a
trailing dot, no dot, upper case, a two-byte letter, an invalid byte. -/
theorem tag_examples :
    firstRegularFile plainTable [⟨lit "run.RAW.Tar.GZ", false⟩] = some (lit "gz") ∧
    firstRegularFile plainTable [⟨lit ".bashrc", false⟩] = some (lit "bashrc") ∧
    firstRegularFile plainTable [⟨lit "scan.", false⟩] = some (lit "") ∧
    firstRegularFile plainTable [⟨lit "README", false⟩] = some (lit "") ∧
    firstRegularFile plainTable [⟨lit "a." ++ [0x4D, 0xC3, 0xA9], false⟩]
      = some [0x6D, 0xC3, 0xA9] ∧
    firstRegularFile plainTable [⟨lit "a." ++ [0x4D, 0xFF], false⟩]
      = some [0x6D, 0xEF, 0xBF, 0xBD] := by
  decide

/-! ## The properties of the specification -/

/-- C1. When the listing of the directory is `dirs ++ file :: rest`, with
every entry of `dirs` a directory and `file` not one (its name, a base name,
holds no separator), `getFileTypeFromDir` returns no error and the tag is
the lower-cased extension of `file` without its leading `.`: for a name
`stem ++ "." ++ suf` with no `.` in `suf` the extension is `"." ++ suf`, the
tag is `TrimPrefix(ToLower("." ++ suf), ".")`, which is `ToLower(suf)`; for
a name without `.` the tag is empty. Neither `dirs` nor `rest` matters. -/
theorem getFileTypeFromDir_first_regular_file (caseTable : Nat → Nat) (w : World)
    (dirPath : GoString) (dirs : List DirEntry) (file : DirEntry) (rest : List DirEntry)
    (hlist : w.ReadDir dirPath = (dirs ++ file :: rest, none))
    (hdirs : ∀ d ∈ dirs, d.IsDir = true) (hfile : file.IsDir = false)
    (hname : Separator ∉ file.Name) :
    (∀ stem suf, file.Name = stem ++ dot :: suf → dot ∉ suf →
      getFileTypeFromDir caseTable w dirPath =
          (stringsTrimPrefix (stringsToLower caseTable (dot :: suf)) (lit "."), none) ∧
        stringsTrimPrefix (stringsToLower caseTable (dot :: suf)) (lit ".") =
          stringsToLower caseTable suf) ∧
    (dot ∉ file.Name → getFileTypeFromDir caseTable w dirPath = (lit "", none)) := by
  have hres := detect_of_listing caseTable w dirPath dirs file rest hlist hdirs hfile
  refine ⟨?_, ?_⟩
  · intro stem suf hn hsuf
    have hclean : ∀ c ∈ suf, c ≠ dot ∧ c ≠ Separator := by
      intro c hc
      refine ⟨fun e => hsuf (e ▸ hc), fun e => hname ?_⟩
      rw [hn]
      exact List.mem_append_right _ (List.mem_cons_of_mem _ (e ▸ hc))
    rw [hres, hn, filepathExt_last_dot stem suf hclean]
    exact ⟨rfl, by rw [stringsToLower_dot_cons, stringsTrimPrefix_dot_cons]⟩
  · intro hnd
    rw [hres]
    have : filepathExt file.Name = [] :=
      extLoop_no_dot file.Name (fun c hc e => hnd (e ▸ hc)) _
    rw [this, stringsToLower_nil, stringsTrimPrefix_nil]
    rfl

/-- C1, at a concrete listing: in `demoWorld` the subdirectory `raw` comes
first, then `scan.mzML` and `notes.txt`; the tag is `mzml`. -/
theorem getFileTypeFromDir_first_regular_file_witness :
    getFileTypeFromDir plainTable demoWorld (lit "in") = (lit "mzml", none) :=
  ((getFileTypeFromDir_first_regular_file plainTable demoWorld (lit "in")
    [⟨lit "raw", true⟩] ⟨lit "scan.mzML", false⟩ [⟨lit "notes.txt", false⟩]
    rfl (by decide) rfl (by decide)).1 (lit "scan") (lit "mzML") rfl (by decide)).1

/-- C2. `getFileTypeFromDir` returns an error exactly when `os.ReadDir`
returned one or no entry of the listing is a regular file (all are
directories, or there is none); and with an error it returns the empty
string. -/
theorem getFileTypeFromDir_fails_iff (caseTable : Nat → Nat) (w : World) (dirPath : GoString) :
    ((getFileTypeFromDir caseTable w dirPath).2 ≠ none ↔
      ((w.ReadDir dirPath).2 ≠ none ∨ ∀ e ∈ (w.ReadDir dirPath).1, e.IsDir = true)) ∧
    ((getFileTypeFromDir caseTable w dirPath).2 ≠ none →
      (getFileTypeFromDir caseTable w dirPath).1 = lit "") := by
  unfold getFileTypeFromDir
  rcases hr : w.ReadDir dirPath with ⟨entries, _ | err⟩
  · simp only
    cases hf : firstRegularFile caseTable entries with
    | none =>
      have := (firstRegularFile_eq_none caseTable entries).1 hf
      simpa using this
    | some t =>
      have hne : ¬ ∀ e ∈ entries, e.IsDir = true := by
        intro hall
        rw [(firstRegularFile_eq_none caseTable entries).2 hall] at hf
        cases hf
      simp [hne]
  · simp

/-- C2, at a concrete listing: the input directory of `dirsOnlyWorld` holds
two subdirectories and no file; detection fails with the empty string. -/
theorem getFileTypeFromDir_fails_iff_witness :
    (getFileTypeFromDir plainTable dirsOnlyWorld (lit "in")).2 ≠ none ∧
    (getFileTypeFromDir plainTable dirsOnlyWorld (lit "in")).1 = lit "" :=
  ⟨(getFileTypeFromDir_fails_iff plainTable dirsOnlyWorld (lit "in")).1.2
      (Or.inr (by decide)),
    (getFileTypeFromDir_fails_iff plainTable dirsOnlyWorld (lit "in")).2
      ((getFileTypeFromDir_fails_iff plainTable dirsOnlyWorld (lit "in")).1.2
        (Or.inr (by decide)))⟩

/-- C3. In a run of either entry point in which the extractor process
returned an error, whatever it had written to its standard output, the exit
status is 1 and `conversion.Convert` is not called. -/
theorem extractor_error_stops_run (caseTable : Nat → Nat) (w : World)
    (arguments : List GoString) :
    (∀ name args inh out err,
      Event.command name args inh out (some err) ∈ (Cli.main caseTable w arguments).trace →
        (Cli.main caseTable w arguments).exit = 1 ∧
        ∀ ev ∈ (Cli.main caseTable w arguments).trace, ev.isConvert = false) ∧
    (∀ name args inh out err,
      Event.command name args inh out (some err) ∈ (Orchestrator.main w).trace →
        (Orchestrator.main w).exit = 1 ∧
        ∀ ev ∈ (Orchestrator.main w).trace, ev.isConvert = false) := by
  constructor
  · intro name args inh out err
    cases hp : Cli.flagParse w.args0 arguments with
    | exited writes code =>
      rw [Cli.main_exited caseTable w arguments writes code hp]
      simp
    | returned inputDir outputDir =>
      rcases Cli.main_cases caseTable w arguments inputDir outputDir hp with
        ⟨_, h⟩ | ⟨_, ⟨_, _, _, h⟩ | ⟨_, _, ⟨_, _, h⟩ | ⟨_, ⟨_, _, _, h⟩ | ⟨_, _,
          ⟨_, _, _, h⟩ | ⟨_, _, ⟨_, _, _, h⟩ | ⟨_, _, h⟩⟩⟩⟩⟩⟩ <;>
        rw [h] <;> simp [Event.isConvert]
  · intro name args inh out err
    rcases Orchestrator.orchestrator_cases w with ⟨_, _, h⟩ | ⟨_, _, _, h⟩ | ⟨_, _, h⟩ <;>
      rw [h] <;> simp [Event.isConvert]

/-- C3, at a concrete run: with an extractor that writes `half` and exits
with status 1, the coordinator started as `ms_reader -i in -o out` exits
with status 1 without calling the converter. -/
theorem extractor_error_stops_run_witness :
    Event.command (lit "/opt/ms/dist/extractor_bin") [lit "in", lit "out"] true (lit "half")
        (some (lit "exit status 1")) ∈
      (Cli.main plainTable brokenExtractorWorld [lit "-i", lit "in", lit "-o", lit "out"]).trace ∧
    ((Cli.main plainTable brokenExtractorWorld [lit "-i", lit "in", lit "-o", lit "out"]).exit
        = 1 ∧
      ∀ ev ∈ (Cli.main plainTable brokenExtractorWorld
          [lit "-i", lit "in", lit "-o", lit "out"]).trace,
        ev.isConvert = false) :=
  ⟨by decide,
    (extractor_error_stops_run plainTable brokenExtractorWorld
        [lit "-i", lit "in", lit "-o", lit "out"]).1
      (lit "/opt/ms/dist/extractor_bin") [lit "in", lit "out"] true (lit "half")
      (lit "exit status 1") (by decide)⟩

/-- C4. In a run of the CLI coordinator in which the extractor process
succeeded with captured standard output `P`, `flag.Parse` had returned with
some values `inputDir` and `outputDir` of the two flags, and
`conversion.Convert` is called exactly once, with `P` itself as first
argument, the mapping path built from the tag detected in `inputDir` as
second, two empty strings, and `outputDir` followed by `/converted.json` as
output path. -/
theorem convert_receives_payload (caseTable : Nat → Nat) (w : World)
    (arguments : List GoString) (name : GoString) (args : List GoString) (inh : Bool)
    (P : GoString)
    (hrun : Event.command name args inh P none ∈ (Cli.main caseTable w arguments).trace) :
    ∃ inputDir outputDir,
      Cli.flagParse w.args0 arguments = .returned inputDir outputDir ∧
      (Cli.main caseTable w arguments).trace.filter Event.isConvert =
        [Event.convert P (Cli.converterCSVPath (getFileTypeFromDir caseTable w inputDir).1)
          (lit "") (lit "") (outputDir ++ lit "/converted.json")
          (w.Convert P (Cli.converterCSVPath (getFileTypeFromDir caseTable w inputDir).1)
            (lit "") (lit "") (outputDir ++ lit "/converted.json")).1
          (w.Convert P (Cli.converterCSVPath (getFileTypeFromDir caseTable w inputDir).1)
            (lit "") (lit "") (outputDir ++ lit "/converted.json")).2] := by
  cases hp : Cli.flagParse w.args0 arguments with
  | exited writes code =>
    rw [Cli.main_exited caseTable w arguments writes code hp] at hrun
    simp at hrun
  | returned inputDir outputDir =>
    refine ⟨inputDir, outputDir, rfl, ?_⟩
    rcases Cli.main_cases caseTable w arguments inputDir outputDir hp with
      ⟨_, h⟩ | ⟨_, ⟨_, _, _, h⟩ | ⟨tag, h1, ⟨_, _, h⟩ | ⟨_, ⟨_, _, _, h⟩ | ⟨p, _,
        ⟨_, _, _, h⟩ | ⟨data, _, ⟨res, e5, h5, h⟩ | ⟨res, h5, h⟩⟩⟩⟩⟩⟩ <;>
      rw [h] at hrun ⊢ <;> simp at hrun
    · obtain ⟨_, _, _, rfl⟩ := hrun
      simp [List.filter, Event.isConvert, h1, h5]
    · obtain ⟨_, _, _, rfl⟩ := hrun
      simp [List.filter, Event.isConvert, h1, h5]

/-- C4, at a concrete run: the extractor of `demoWorld` writes `{}`, and the
one call of the converter in the run of `ms_reader -i in -o out` receives
these two bytes. -/
theorem convert_receives_payload_witness :
    Event.command (lit "/opt/ms/dist/extractor_bin") [lit "in", lit "out"] true (lit "\x7b\x7d")
        none ∈ (Cli.main plainTable demoWorld [lit "-i", lit "in", lit "-o", lit "out"]).trace ∧
    (Cli.main plainTable demoWorld [lit "-i", lit "in", lit "-o", lit "out"]).trace.filter
        Event.isConvert =
      [Event.convert (lit "\x7b\x7d") (lit "../Converter/csv/ms_conversions_mzml.csv")
        (lit "") (lit "") (lit "out/converted.json") (lit "\x7b\"a\":1\x7d") none] :=
  ⟨by decide, by
    obtain ⟨inputDir, outputDir, hp, h⟩ :=
      convert_receives_payload plainTable demoWorld [lit "-i", lit "in", lit "-o", lit "out"]
        (lit "/opt/ms/dist/extractor_bin") [lit "in", lit "out"] true (lit "\x7b\x7d")
        (by decide)
    have hv : Cli.FlagOutcome.returned inputDir outputDir =
        Cli.FlagOutcome.returned (lit "in") (lit "out") := hp.symm.trans rfl
    cases hv
    exact h⟩

/-- C5. With case tables that lower no rune to `.` or `/`: for every tag
that `getFileTypeFromDir` returns, the mapping path of line 83 is
`../Converter/csv/` followed by `ms_conversions_`, the tag and `.csv`
(cleaning the joined path changes nothing); the second argument of every
call of `conversion.Convert` in a run is this path for the tag detected in
the input directory of the run. When the listing of a directory is the one
file `scan.mzml`, the tag is `mzml` and the mapping path is
`../Converter/csv/ms_conversions_mzml.csv`, which ends in
`/ms_conversions_mzml.csv`. -/
theorem mapping_path_of_tag (caseTable : Nat → Nat) (hT : CaseTableOK caseTable) (w : World)
    (arguments : List GoString) :
    (∀ dirPath tag, getFileTypeFromDir caseTable w dirPath = (tag, none) →
      Cli.converterCSVPath tag =
        lit "../Converter/csv" ++ [Separator] ++ (lit "ms_conversions_" ++ tag ++ lit ".csv")) ∧
    (∀ raw mapping r1 r2 outFile res err,
      Event.convert raw mapping r1 r2 outFile res err ∈ (Cli.main caseTable w arguments).trace →
        ∃ inputDir outputDir tag,
          Cli.flagParse w.args0 arguments = .returned inputDir outputDir ∧
          getFileTypeFromDir caseTable w inputDir = (tag, none) ∧
          mapping = lit "../Converter/csv" ++ [Separator]
            ++ (lit "ms_conversions_" ++ tag ++ lit ".csv")) ∧
    (∀ dirPath, w.ReadDir dirPath = ([⟨lit "scan.mzml", false⟩], none) →
      getFileTypeFromDir caseTable w dirPath = (lit "mzml", none) ∧
        Cli.converterCSVPath (lit "mzml") = lit "../Converter/csv/ms_conversions_mzml.csv" ∧
        lit "/ms_conversions_mzml.csv" <:+ Cli.converterCSVPath (lit "mzml")) := by
  have hpath : ∀ dirPath tag, getFileTypeFromDir caseTable w dirPath = (tag, none) →
      Cli.converterCSVPath tag =
        lit "../Converter/csv" ++ [Separator]
          ++ (lit "ms_conversions_" ++ tag ++ lit ".csv") := by
    intro dirPath tag htag
    have hclean := tag_clean caseTable hT w dirPath tag htag
    exact converterCSVPath_eq tag (fun c hc => (hclean c hc).2)
  refine ⟨hpath, ?_, ?_⟩
  · intro raw mapping r1 r2 outFile res err hmem
    cases hp : Cli.flagParse w.args0 arguments with
    | exited writes code =>
      rw [Cli.main_exited caseTable w arguments writes code hp] at hmem
      simp at hmem
    | returned inputDir outputDir =>
      rcases Cli.main_cases caseTable w arguments inputDir outputDir hp with
        ⟨_, h⟩ | ⟨_, ⟨_, _, h1, h⟩ | ⟨tag, h1, ⟨_, _, h⟩ | ⟨_, ⟨_, _, _, h⟩ | ⟨_, _,
          ⟨_, _, _, h⟩ | ⟨_, _, ⟨_, _, _, h⟩ | ⟨_, _, h⟩⟩⟩⟩⟩⟩ <;>
        rw [h] at hmem <;> simp at hmem
      all_goals
        refine ⟨inputDir, outputDir, tag, rfl, h1, ?_⟩
        rw [← hpath inputDir tag h1]
        exact hmem.2.1
  · intro dirPath hlist
    have hdet : getFileTypeFromDir caseTable w dirPath = (lit "mzml", none) := by
      rw [detect_of_listing caseTable w dirPath [] ⟨lit "scan.mzml", false⟩ [] hlist
        (by simp) rfl]
      rfl
    have hp := converterCSVPath_eq (lit "mzml") (by decide)
    refine ⟨hdet, hp, ?_⟩
    rw [hp]
    exact ⟨lit "../Converter/csv", rfl⟩

/-- C5, at a concrete run: the converter of `mzmlWorld` is handed
`../Converter/csv/ms_conversions_mzml.csv`. -/
theorem mapping_path_of_tag_witness :
    CaseTableOK plainTable ∧
    getFileTypeFromDir plainTable mzmlWorld (lit "in") = (lit "mzml", none) ∧
    Cli.converterCSVPath (lit "mzml") = lit "../Converter/csv/ms_conversions_mzml.csv" ∧
    lit "/ms_conversions_mzml.csv" <:+ Cli.converterCSVPath (lit "mzml") :=
  ⟨plainTable_ok,
    (mapping_path_of_tag plainTable plainTable_ok mzmlWorld
      [lit "-i", lit "in", lit "-o", lit "out"]).2.2 (lit "in") rfl⟩

/-- C6, as stated, fails when `flag.Parse` itself ends the run: started as
`ms_reader -h`, with neither `-i` nor `-o` on the command line, the program
writes the usage text of package `flag` and exits with status 0; started as
`ms_reader -x` it exits with status 2. -/
theorem flag_help_exits_zero :
    Cli.main plainTable demoWorld [lit "-h"] =
      { trace := [.stderr (lit "Usage of ms_reader:\n"), .stderr Cli.printDefaults],
        exit := 0 } ∧
    (Cli.main plainTable demoWorld [lit "-x"]).trace =
      [.stderr (lit "flag provided but not defined: -x\n"),
        .stderr (lit "Usage of ms_reader:\n"), .stderr Cli.printDefaults] ∧
    (Cli.main plainTable demoWorld [lit "-x"]).exit = 2 := by
  decide

/-- C6, amended. When `flag.Parse` returns and the value of `-i` or of `-o`
is empty, the run writes the usage line and the flag defaults to standard
error and exits with status 1, and these two writes are all it does: no
directory is listed or created, no process is started, the converter is not
called. When `flag.Parse` returns and both values are non-empty, the first
effect of the run is the listing of the input directory and the usage line
is not written. When `flag.Parse` ends the process itself, the run consists
of the writes of package `flag` to standard error, the exit status is 0 or
2, and again no later step is performed. -/
theorem usage_exit_iff_flag_empty (caseTable : Nat → Nat) (w : World)
    (arguments : List GoString) :
    (∀ inputDir outputDir,
      Cli.flagParse w.args0 arguments = .returned inputDir outputDir →
      (inputDir = lit "" ∨ outputDir = lit "") →
        Cli.main caseTable w arguments =
          { trace := [.stderr (lit "Usage: " ++ w.args0
                        ++ lit " -i <input_directory> -o <output_directory>\n"),
                      .stderr Cli.printDefaults],
            exit := 1 } ∧
        ∀ ev ∈ (Cli.main caseTable w arguments).trace,
          ev.isReadDir = false ∧ ev.isMkdirAll = false ∧ ev.isCommand = false ∧
            ev.isConvert = false) ∧
    (∀ inputDir outputDir,
      Cli.flagParse w.args0 arguments = .returned inputDir outputDir →
      (inputDir ≠ lit "" ∧ outputDir ≠ lit "") →
        (Cli.main caseTable w arguments).trace.head? =
          some (Event.readDir inputDir (w.ReadDir inputDir).1 (w.ReadDir inputDir).2) ∧
        ∀ ev ∈ (Cli.main caseTable w arguments).trace,
          ev ≠ Event.stderr (lit "Usage: " ++ w.args0
            ++ lit " -i <input_directory> -o <output_directory>\n")) ∧
    (∀ writes code,
      Cli.flagParse w.args0 arguments = .exited writes code →
        Cli.main caseTable w arguments = { trace := writes.map Event.stderr, exit := code } ∧
        (code = 0 ∨ code = 2) ∧
        ∀ ev ∈ (Cli.main caseTable w arguments).trace,
          ev.isReadDir = false ∧ ev.isMkdirAll = false ∧ ev.isCommand = false ∧
            ev.isConvert = false) := by
  refine ⟨?_, ?_, ?_⟩
  · intro inputDir outputDir hp h0
    rw [Cli.main_usage _ _ _ _ _ hp h0]
    simp [Event.isReadDir, Event.isMkdirAll, Event.isCommand, Event.isConvert]
  · rintro inputDir outputDir hp ⟨hi, ho⟩
    rcases Cli.main_cases caseTable w arguments inputDir outputDir hp with
      ⟨h0, h⟩ | ⟨_, ⟨_, _, _, h⟩ | ⟨tag, h1, ⟨_, _, h⟩ | ⟨_, ⟨_, _, _, h⟩ | ⟨p, _,
        ⟨_, _, _, h⟩ | ⟨data, _, ⟨res, e5, h5, h⟩ | ⟨res, h5, h⟩⟩⟩⟩⟩⟩
    · rcases h0 with h0 | h0
      · exact absurd h0 hi
      · exact absurd h0 ho
    all_goals
      rw [h]
      simp [Sprintln, lit, List.intercalate]
  · intro writes code hp
    rw [Cli.main_exited caseTable w arguments writes code hp]
    refine ⟨rfl, (phaseOfDiagnostic_flag w.args0 writes code arguments hp).1, ?_⟩
    intro ev hev
    obtain ⟨t, _, rfl⟩ := List.mem_map.1 hev
    exact ⟨rfl, rfl, rfl, rfl⟩

/-- C6, amended, at concrete runs of `demoWorld`: `ms_reader -o out` (no
`-i`) is the usage exit with status 1; the first effect of
`ms_reader -i in -o out` is the listing of `in`. -/
theorem usage_exit_iff_flag_empty_witness :
    (Cli.main plainTable demoWorld [lit "-o", lit "out"]).exit = 1 ∧
    (Cli.main plainTable demoWorld [lit "-o", lit "out"]).trace.length = 2 ∧
    (Cli.main plainTable demoWorld [lit "-i", lit "in", lit "-o", lit "out"]).trace.head? =
      some (Event.readDir (lit "in") (demoWorld.ReadDir (lit "in")).1
        (demoWorld.ReadDir (lit "in")).2) :=
  ⟨by rw [((usage_exit_iff_flag_empty plainTable demoWorld [lit "-o", lit "out"]).1
      (lit "") (lit "out") rfl (Or.inl rfl)).1],
    by rw [((usage_exit_iff_flag_empty plainTable demoWorld [lit "-o", lit "out"]).1
      (lit "") (lit "out") rfl (Or.inl rfl)).1]; rfl,
    ((usage_exit_iff_flag_empty plainTable demoWorld
      [lit "-i", lit "in", lit "-o", lit "out"]).2.1 (lit "in") (lit "out") rfl
      ⟨by decide, by decide⟩).1⟩

/-- C7, as stated, fails for the fixed-path orchestrator: in the run of
`demoWorld` the extractor process is started as the second effect of the
run, and no call of `os.MkdirAll` precedes it (there is none in the whole
run). -/
theorem orchestrator_runs_extractor_unprepared :
    ∃ n ev, (Orchestrator.main demoWorld).trace[n]? = some ev ∧ ev.isCommand = true ∧
      (∀ e ∈ (Orchestrator.main demoWorld).trace.take n, e.isMkdirAll = false) ∧
      ∀ e ∈ (Orchestrator.main demoWorld).trace, e.isMkdirAll = false :=
  ⟨1, Event.command (lit "python3")
      [lit "-m", lit "extractor", lit "/app/input", lit "/app/output"] false (lit "\x7b\x7d") none,
    by decide, by decide, by decide, by decide⟩

/-- C7, amended. In a run of the CLI coordinator in which the extractor
process is started, `flag.Parse` had returned with some values `inputDir`
and `outputDir`, and the effects that precede the start of the extractor
contain exactly one call of `os.MkdirAll`: that of `outputDir` with mode
0755, and it returned no error. The fixed-path orchestrator never calls
`os.MkdirAll`. -/
theorem cli_prepares_output_dir_first (caseTable : Nat → Nat) (w : World)
    (arguments : List GoString) :
    (∀ n ev, (Cli.main caseTable w arguments).trace[n]? = some ev →
      ev.isCommand = true →
        ∃ inputDir outputDir,
          Cli.flagParse w.args0 arguments = .returned inputDir outputDir ∧
          ((Cli.main caseTable w arguments).trace.take n).filter Event.isMkdirAll =
            [Event.mkdirAll outputDir 0o755 none]) ∧
    (∀ e ∈ (Orchestrator.main w).trace, e.isMkdirAll = false) := by
  constructor
  · intro n ev hev hcmd
    cases hp : Cli.flagParse w.args0 arguments with
    | exited writes code =>
      rw [Cli.main_exited caseTable w arguments writes code hp] at hev
      have hmem := List.getElem?_mem hev
      obtain ⟨t, _, rfl⟩ := List.mem_map.1 hmem
      cases hcmd
    | returned inputDir outputDir =>
      refine ⟨inputDir, outputDir, rfl, ?_⟩
      rcases Cli.main_cases caseTable w arguments inputDir outputDir hp with
        ⟨_, h⟩ | ⟨_, ⟨_, _, _, h⟩ | ⟨_, _, ⟨_, _, h⟩ | ⟨_, ⟨_, _, _, h⟩ | ⟨_, _,
          ⟨_, _, _, h⟩ | ⟨_, _, ⟨_, _, _, h⟩ | ⟨_, _, h⟩⟩⟩⟩⟩⟩ <;>
        rw [h] at hev ⊢ <;>
        rcases n with _ | _ | _ | _ | _ | _ | _ | _ | _ | n <;>
        simp at hev <;> subst hev <;>
        simp [List.filter, Event.isMkdirAll, Event.isCommand] at hcmd ⊢
  · rcases Orchestrator.orchestrator_cases w with ⟨_, _, h⟩ | ⟨_, _, _, h⟩ | ⟨_, _, h⟩ <;>
      rw [h] <;> simp [Event.isMkdirAll]

/-- C7, amended, at a concrete run: the extractor is the fifth effect of the
run of `ms_reader -i in -o out` in `demoWorld`, and the creation of `out`
precedes it. -/
theorem cli_prepares_output_dir_first_witness :
    ((Cli.main plainTable demoWorld [lit "-i", lit "in", lit "-o", lit "out"]).trace.take 4).filter
        Event.isMkdirAll = [Event.mkdirAll (lit "out") 0o755 none] := by
  obtain ⟨inputDir, outputDir, hp, h⟩ :=
    (cli_prepares_output_dir_first plainTable demoWorld
      [lit "-i", lit "in", lit "-o", lit "out"]).1 4
      (Event.command (lit "/opt/ms/dist/extractor_bin") [lit "in", lit "out"] true
        (lit "\x7b\x7d") none) (by decide) (by decide)
  have hv : Cli.FlagOutcome.returned inputDir outputDir =
      Cli.FlagOutcome.returned (lit "in") (lit "out") := hp.symm.trans rfl
  cases hv
  exact h

/-- C8. In a run of the CLI coordinator in which `conversion.Convert`
returned the bytes `R` and no error, the exit status is 0 and standard
output is the extractor banner, the converter banner and the results banner,
each on a line, followed by the bytes of `R` unchanged and the newline that
`fmt.Println` adds. -/
theorem success_prints_result (caseTable : Nat → Nat) (w : World)
    (arguments : List GoString) (raw mapping r1 r2 outFile R : GoString)
    (hconv : Event.convert raw mapping r1 r2 outFile R none ∈
      (Cli.main caseTable w arguments).trace) :
    (Cli.main caseTable w arguments).exit = 0 ∧
    (Cli.main caseTable w arguments).stdout =
      lit "=== Running Python extractor ===\n" ++ lit "=== Running Go converter ===\n"
        ++ lit "\n=== MS Reader results ===\n" ++ R ++ lit "\n" := by
  cases hp : Cli.flagParse w.args0 arguments with
  | exited writes code =>
    rw [Cli.main_exited caseTable w arguments writes code hp] at hconv
    simp at hconv
  | returned inputDir outputDir =>
    rcases Cli.main_cases caseTable w arguments inputDir outputDir hp with
      ⟨_, h⟩ | ⟨_, ⟨_, _, _, h⟩ | ⟨tag, h1, ⟨_, _, h⟩ | ⟨_, ⟨_, _, _, h⟩ | ⟨p, _,
        ⟨_, _, _, h⟩ | ⟨data, _, ⟨res, e5, h5, h⟩ | ⟨res, h5, h⟩⟩⟩⟩⟩⟩ <;>
      rw [h] at hconv ⊢ <;> simp at hconv
    obtain ⟨_, _, _, _, _, rfl⟩ := hconv
    refine ⟨rfl, ?_⟩
    simp [Run.stdout, Event.stdoutText, Sprintln, List.intercalate, lit]

/-- C8, at a concrete run: the run of `ms_reader -i in -o out` in
`demoWorld` prints the three banners and `{"a":1}`. -/
theorem success_prints_result_witness :
    (Cli.main plainTable demoWorld [lit "-i", lit "in", lit "-o", lit "out"]).exit = 0 ∧
    (Cli.main plainTable demoWorld [lit "-i", lit "in", lit "-o", lit "out"]).stdout =
      lit "=== Running Python extractor ===\n" ++ lit "=== Running Go converter ===\n"
        ++ lit "\n=== MS Reader results ===\n" ++ lit "\x7b\"a\":1\x7d" ++ lit "\n" :=
  success_prints_result plainTable demoWorld [lit "-i", lit "in", lit "-o", lit "out"]
    (lit "\x7b\x7d") (lit "../Converter/csv/ms_conversions_mzml.csv") (lit "") (lit "")
    (lit "out/converted.json") (lit "\x7b\"a\":1\x7d") (by decide)

/-- C9, as stated, fails when `flag.Parse` itself ends the run: started as
`ms_reader -help` the program exits with status 0 although no phase was
executed, so not every phase succeeded; started as `ms_reader --out=x`, with
an undefined flag, it exits with status 2, which is a failing exit that is
not the failure of any of the five phases. -/
theorem flag_exits_outside_phases :
    ((Cli.main plainTable demoWorld [lit "-help"]).exit = 0 ∧
      (∀ ev ∈ (Cli.main plainTable demoWorld [lit "-help"]).trace, ev.phase = none) ∧
      ¬ ∀ ph, Cli.Succeeds plainTable demoWorld [lit "-help"] ph) ∧
    ((Cli.main plainTable demoWorld [lit "--out=x"]).exit = 2 ∧
      (Cli.main plainTable demoWorld [lit "--out=x"]).stderr =
        lit "flag provided but not defined: -out\n" ++ lit "Usage of ms_reader:\n"
          ++ Cli.printDefaults ∧
      ¬ ∃ ph, Cli.Fails plainTable demoWorld [lit "--out=x"] ph) := by
  refine ⟨⟨by decide, by decide, ?_⟩, by decide, rfl, ?_⟩
  · intro h
    obtain ⟨path, hmem⟩ := h Phase.outputDir
    revert hmem
    have ht : (Cli.main plainTable demoWorld [lit "-help"]).trace =
        [.stderr (lit "Usage of ms_reader:\n"), .stderr Cli.printDefaults] := by decide
    rw [ht]
    simp
  · rintro ⟨ph, hf⟩
    have h1 := (fails_key plainTable demoWorld [lit "--out=x"] ph hf).1
    have h2 : (Cli.main plainTable demoWorld [lit "--out=x"]).exit = 2 := by decide
    rw [h2] at h1
    cases h1

/-- C9, amended. In a run of the CLI coordinator in which `flag.Parse`
returns, the exit status is 0 or 1, and it is 0 exactly when each of the five
phases was executed and succeeded. In every run, the exit status is 1
exactly when a phase failed. When a phase fails, the exit status is 1, the
last effect of the run is a write to standard error, what the run wrote
there names that phase, no effect of a later phase occurs in the run, no
other phase fails in it, and a run (on any command line, in any world) in
which another phase fails writes something else to standard error. The
phases are argument validation, file-type detection, output-directory
creation, extraction (locating the extractor with `os.Executable` and
running it) and conversion. When `flag.Parse` ends the process itself, the
exit status is 0 or 2, the run consists of the writes of package `flag` to
standard error, which name no phase, and no phase is executed: none fails
and none succeeds. -/
theorem every_failure_is_fatal (caseTable : Nat → Nat) (w : World)
    (arguments : List GoString) :
    (∀ inputDir outputDir,
      Cli.flagParse w.args0 arguments = .returned inputDir outputDir →
        ((Cli.main caseTable w arguments).exit = 0 ∨
          (Cli.main caseTable w arguments).exit = 1) ∧
        ((Cli.main caseTable w arguments).exit = 0 ↔
          ∀ ph, Cli.Succeeds caseTable w arguments ph)) ∧
    ((Cli.main caseTable w arguments).exit = 1 ↔
      ∃ ph, Cli.Fails caseTable w arguments ph) ∧
    (∀ ph, Cli.Fails caseTable w arguments ph →
      (Cli.main caseTable w arguments).exit = 1 ∧
      (∃ d, (Cli.main caseTable w arguments).trace.getLast? = some (Event.stderr d)) ∧
      phaseOfDiagnostic (Cli.main caseTable w arguments).stderr = some ph ∧
      (∀ ev ∈ (Cli.main caseTable w arguments).trace, ∀ q, ev.phase = some q →
        q.rank ≤ ph.rank) ∧
      (∀ ph2, Cli.Fails caseTable w arguments ph2 → ph2 = ph) ∧
      (∀ (w2 : World) (arguments2 : List GoString) (ph2 : Phase),
        Cli.Fails caseTable w2 arguments2 ph2 → ph2 ≠ ph →
          (Cli.main caseTable w2 arguments2).stderr ≠
            (Cli.main caseTable w arguments).stderr)) ∧
    (∀ writes code,
      Cli.flagParse w.args0 arguments = .exited writes code →
        (code = 0 ∨ code = 2) ∧
        Cli.main caseTable w arguments = { trace := writes.map Event.stderr, exit := code } ∧
        (∀ ev ∈ (Cli.main caseTable w arguments).trace, ev.phase = none) ∧
        phaseOfDiagnostic (Cli.main caseTable w arguments).stderr = none ∧
        ∀ ph, ¬ Cli.Fails caseTable w arguments ph ∧
          ¬ Cli.Succeeds caseTable w arguments ph) := by
  have hkey := fails_key caseTable w arguments
  have hfatal : ∀ ph, Cli.Fails caseTable w arguments ph →
      (Cli.main caseTable w arguments).exit = 1 ∧
      (∃ d, (Cli.main caseTable w arguments).trace.getLast? = some (Event.stderr d)) ∧
      phaseOfDiagnostic (Cli.main caseTable w arguments).stderr = some ph ∧
      (∀ ev ∈ (Cli.main caseTable w arguments).trace, ∀ q, ev.phase = some q →
        q.rank ≤ ph.rank) ∧
      (∀ ph2, Cli.Fails caseTable w arguments ph2 → ph2 = ph) ∧
      (∀ (w2 : World) (arguments2 : List GoString) (ph2 : Phase),
        Cli.Fails caseTable w2 arguments2 ph2 → ph2 ≠ ph →
          (Cli.main caseTable w2 arguments2).stderr ≠
            (Cli.main caseTable w arguments).stderr) := by
    intro ph hf
    obtain ⟨h1, h2, h3, h4⟩ := hkey ph hf
    refine ⟨h1, h2, h3, h4, ?_, ?_⟩
    · intro ph2 hf2
      have := (hkey ph2 hf2).2.2.1
      rw [h3] at this
      exact (Option.some.inj this).symm
    · intro w2 a2 ph2 hf2 hne heq
      have := (fails_key caseTable w2 a2 ph2 hf2).2.2.1
      rw [heq, h3] at this
      exact hne (Option.some.inj this).symm
  have hexited : ∀ writes code,
      Cli.flagParse w.args0 arguments = .exited writes code →
        (code = 0 ∨ code = 2) ∧
        Cli.main caseTable w arguments = { trace := writes.map Event.stderr, exit := code } ∧
        (∀ ev ∈ (Cli.main caseTable w arguments).trace, ev.phase = none) ∧
        phaseOfDiagnostic (Cli.main caseTable w arguments).stderr = none ∧
        ∀ ph, ¬ Cli.Fails caseTable w arguments ph ∧
          ¬ Cli.Succeeds caseTable w arguments ph := by
    intro writes code hp
    have hm := Cli.main_exited caseTable w arguments writes code hp
    have hflag := phaseOfDiagnostic_flag w.args0 writes code arguments hp
    refine ⟨hflag.1, hm, ?_, ?_, ?_⟩
    · intro ev hev
      rw [hm] at hev
      obtain ⟨t, _, rfl⟩ := List.mem_map.1 hev
      rfl
    · rw [hm, stderr_of_writes]
      exact hflag.2
    · intro ph
      constructor
      · intro hf
        have h1 := (hkey ph hf).1
        rw [hm] at h1
        rcases hflag.1 with hc | hc <;> rw [hc] at h1 <;> cases h1
      · intro hs
        cases ph <;> simp only [Cli.Succeeds, hm] at hs <;> simp [hp] at hs
  refine ⟨?_, ?_, hfatal, hexited⟩
  · intro inputDir outputDir hp
    constructor
    · rcases Cli.main_cases caseTable w arguments inputDir outputDir hp with
        ⟨_, h⟩ | ⟨_, ⟨_, _, _, h⟩ | ⟨_, _, ⟨_, _, h⟩ | ⟨_, ⟨_, _, _, h⟩ | ⟨_, _,
          ⟨_, _, _, h⟩ | ⟨_, _, ⟨_, _, _, h⟩ | ⟨_, _, h⟩⟩⟩⟩⟩⟩ <;>
        rw [h] <;> simp
    · rcases Cli.main_cases caseTable w arguments inputDir outputDir hp with
        ⟨h0, h⟩ | ⟨h0, ⟨t, e1, h1, h⟩ | ⟨tag, h1, ⟨e2, h2, h⟩ | ⟨h2, ⟨p, e3, h3, h⟩ | ⟨p, h3,
          ⟨data, e4, h4, h⟩ | ⟨data, h4, ⟨res, e5, h5, h⟩ | ⟨res, h5, h⟩⟩⟩⟩⟩⟩
      · constructor
        · rw [h]; simp
        · intro hs
          obtain ⟨i1, o1, hq, hi, ho⟩ := hs Phase.validation
          rw [hp] at hq
          cases hq
          rcases h0 with h0 | h0
          · exact absurd h0 hi
          · exact absurd h0 ho
      · constructor
        · rw [h]; simp
        · intro hs
          have := hs Phase.detection
          simp only [Cli.Succeeds, h] at this
          simp [h1] at this
      · constructor
        · rw [h]; simp
        · intro hs
          have := hs Phase.outputDir
          simp only [Cli.Succeeds, h] at this
          simp at this
      · constructor
        · rw [h]; simp
        · intro hs
          have := (hs Phase.extraction).1
          simp only [h] at this
          simp at this
      · constructor
        · rw [h]; simp
        · intro hs
          have := (hs Phase.extraction).2
          simp only [h] at this
          simp at this
      · constructor
        · rw [h]; simp
        · intro hs
          have := hs Phase.conversion
          simp only [Cli.Succeeds, h] at this
          simp at this
      · constructor
        · intro _ ph
          cases ph <;> simp only [Cli.Succeeds, h, hp] <;> simp [h1]
          exact ⟨inputDir, outputDir, ⟨rfl, rfl⟩, not_or.1 h0⟩
        · intro _; rw [h]
  · constructor
    · intro hexit
      cases hp : Cli.flagParse w.args0 arguments with
      | exited writes code =>
        obtain ⟨hc, hm, _⟩ := hexited writes code hp
        rw [hm] at hexit
        rcases hc with hc | hc <;> rw [hc] at hexit <;> cases hexit
      | returned inputDir outputDir =>
        rcases Cli.main_cases caseTable w arguments inputDir outputDir hp with
          ⟨h0, h⟩ | ⟨h0, ⟨t, e1, h1, h⟩ | ⟨tag, h1, ⟨e2, h2, h⟩ | ⟨h2, ⟨p, e3, h3, h⟩ | ⟨p, h3,
            ⟨data, e4, h4, h⟩ | ⟨data, h4, ⟨res, e5, h5, h⟩ | ⟨res, h5, h⟩⟩⟩⟩⟩⟩
        · exact ⟨Phase.validation, inputDir, outputDir, hp, h0⟩
        · refine ⟨Phase.detection, inputDir, (w.ReadDir inputDir).1, (w.ReadDir inputDir).2, ?_⟩
          rw [h, h1]; simp
        · refine ⟨Phase.outputDir, ?_⟩
          simp only [Cli.Fails, h]; simp
        · refine ⟨Phase.extraction, ?_⟩
          simp only [Cli.Fails, h]; simp
        · refine ⟨Phase.extraction, ?_⟩
          simp only [Cli.Fails, h]; simp
        · refine ⟨Phase.conversion, ?_⟩
          simp only [Cli.Fails, h]; simp
        · rw [h] at hexit; cases hexit
    · rintro ⟨ph, hf⟩
      exact (hkey ph hf).1

/-- C9, amended, at a concrete run: with the extractor of
`brokenExtractorWorld` the extraction phase of `ms_reader -i in -o out`
fails, the run exits with status 1 and its diagnostic names the extraction
phase. -/
theorem every_failure_is_fatal_witness :
    Cli.Fails plainTable brokenExtractorWorld [lit "-i", lit "in", lit "-o", lit "out"]
      Phase.extraction ∧
    (Cli.main plainTable brokenExtractorWorld [lit "-i", lit "in", lit "-o", lit "out"]).exit
      = 1 ∧
    phaseOfDiagnostic
        (Cli.main plainTable brokenExtractorWorld
          [lit "-i", lit "in", lit "-o", lit "out"]).stderr
      = some Phase.extraction :=
  have hf : Cli.Fails plainTable brokenExtractorWorld [lit "-i", lit "in", lit "-o", lit "out"]
      Phase.extraction :=
    Or.inr ⟨lit "/opt/ms/dist/extractor_bin", [lit "in", lit "out"], true, lit "half",
      lit "exit status 1", by decide⟩
  ⟨hf,
    ((every_failure_is_fatal plainTable brokenExtractorWorld
      [lit "-i", lit "in", lit "-o", lit "out"]).2.2.1 Phase.extraction hf).1,
    ((every_failure_is_fatal plainTable brokenExtractorWorld
      [lit "-i", lit "in", lit "-o", lit "out"]).2.2.1 Phase.extraction hf).2.2.1⟩

/-- C10. With case tables that lower no rune to `.` or `/`: a tag returned
by `getFileTypeFromDir` holds neither the byte `.` nor the byte `/`,
whatever the names in the listing are; the last element of the mapping path
built from it is `ms_conversions_`, the tag and `.csv`, and the directory of
that path is `../Converter/csv`. -/
theorem tag_has_no_dot_or_separator (caseTable : Nat → Nat) (hT : CaseTableOK caseTable)
    (w : World) (dirPath tag : GoString)
    (hok : getFileTypeFromDir caseTable w dirPath = (tag, none)) :
    dot ∉ tag ∧ Separator ∉ tag ∧
    filepathBase (Cli.converterCSVPath tag) = lit "ms_conversions_" ++ tag ++ lit ".csv" ∧
    filepathDir (Cli.converterCSVPath tag) = lit "../Converter/csv" := by
  have hclean := tag_clean caseTable hT w dirPath tag hok
  have hsep : ∀ c ∈ tag, c ≠ Separator := fun c hc => (hclean c hc).2
  have hel : ∀ b ∈ lit "ms_conversions_" ++ tag ++ lit ".csv", b ≠ Separator := by
    intro c hc
    simp only [List.mem_append] at hc
    rcases hc with (hc | hc) | hc
    · revert c; decide
    · exact hsep c hc
    · revert c; decide
  have hd := (mem_clean_iff tag).1 hclean
  refine ⟨hd.1, hd.2, ?_, ?_⟩
  · rw [converterCSVPath_eq tag hsep]
    exact filepathBase_converter 0x6D (lit "s_conversions_" ++ tag ++ lit ".csv") hel
  · rw [converterCSVPath_eq tag hsep]
    exact filepathDir_converter _ hel

/-- C10, at a concrete listing: the first regular file of `demoWorld` is
`scan.mzML`; the tag `mzml` has no `.` and no `/`. -/
theorem tag_has_no_dot_or_separator_witness :
    CaseTableOK plainTable ∧
    getFileTypeFromDir plainTable demoWorld (lit "in") = (lit "mzml", none) ∧
    (dot ∉ lit "mzml" ∧ Separator ∉ lit "mzml" ∧
      filepathBase (Cli.converterCSVPath (lit "mzml")) = lit "ms_conversions_mzml.csv" ∧
      filepathDir (Cli.converterCSVPath (lit "mzml")) = lit "../Converter/csv") :=
  ⟨plainTable_ok, by decide,
    tag_has_no_dot_or_separator plainTable plainTable_ok demoWorld (lit "in") (lit "mzml")
      (by decide)⟩

end MSReader
